import Mathlib

/-!
# gbsplay: player.c

A shallow embedding of the play-order sequencing and of the sample buffer
relay of `player.c`, followed by theorems about them.

Conventions of the embedding.

* `long` values are `Int`.  All `long` arithmetic of the embedded functions
  stays within `[-1, songs]`, so no wrap-around is modelled for it.
* `random_seed` is an `unsigned long`: it is a `Nat` below `ULONG_MOD` and its
  increments and decrements are reduced modulo `ULONG_MOD` (LP64).
* The file-level variables of `player.c` are the fields of `Player`.
* Functions declared in `util.h`, `gbs.h`, `plugout.h` and libc whose bodies are
  not part of `player.c` are the fields of `Env` (random generator) or are
  recorded as `Call`s (engine and sink).
* An array read outside its bounds, and a loop that has used up its fuel, end
  the run with an `Err`.
-/

namespace GbsPlay

/-! ## Data model -/

/-- Number of values of an `unsigned long` (LP64). -/
def ULONG_MOD : Nat := 18446744073709551616

/-- Number of values of an `unsigned int`, the argument type of `srand`. -/
def UINT_MOD : Nat := 4294967296

/-- The three play modes (`PLAYMODE_*` of `player.h`). -/
inductive Playmode where
  | PLAYMODE_LINEAR
  | PLAYMODE_RANDOM
  | PLAYMODE_SHUFFLE
  deriving DecidableEq, Repr

/-- The sink's requested byte order (`enum plugout_endian`). -/
inductive plugout_endian where
  | PLUGOUT_ENDIAN_BIG
  | PLUGOUT_ENDIAN_LITTLE
  | PLUGOUT_ENDIAN_NATIVE
  deriving DecidableEq, Repr

/-- Byte order of the machine the player runs on. -/
inductive HostEndian where
  | little
  | big
  deriving DecidableEq, Repr

/-- Why a run of the model stops without a result. -/
inductive Err where
  | outOfBounds
  | outOfFuel
  deriving DecidableEq, Repr

deriving instance DecidableEq for Except

/-- The fields of `struct gbs` that `player.c` reads or writes.
`subsong_info` holds the `len` field of every subsong. -/
structure Gbs where
  songs : Int
  defaultsong : Int
  subsong : Int
  ticks : Int
  subsong_info : List Int
  subsong_timeout : Int
  silence_timeout : Int
  gap : Int
  fadeout : Int
  deriving DecidableEq, Repr

/-- The sample buffer `struct gbhw_buffer`: `data` is the `int16_t` array,
`pos` the write cursor in frames, `bytes` the capacity in bytes. -/
structure gbhw_buffer where
  data : List Int
  pos : Int
  bytes : Int
  deriving DecidableEq, Repr

/-- The random number functions used by `player.c` whose bodies live elsewhere:
`srand` of libc, `shuffle_long` and `rand_long` of `util.c`.  `G` is the state of
the shared generator; `shuffle_long g a n` shuffles the `n` elements of `a`. -/
structure Env (G : Type) where
  srand : Nat → G
  shuffle_long : G → List Int → Int → List Int × G
  rand_long : G → Int → Int × G

/-- The file-level variables of `player.c` used by the sequencer, with the state
of the libc generator (`rng`) and whether the sink has a skip hook. -/
structure Player (G : Type) where
  playmode : Playmode
  loopmode : Int
  subsong_start : Int
  subsong_stop : Int
  subsong_timeout : Int
  silence_timeout : Int
  subsong_gap : Int
  fadeout : Int
  subsong_playlist : List Int
  subsong_playlist_idx : Int
  random_seed : Nat
  rng : G
  has_sound_skip : Bool
  deriving DecidableEq, Repr

/-- A call made to the sound engine or to the sink. -/
inductive Call where
  | gbs_init (subsong : Int)
  | sound_skip (subsong : Int)
  deriving DecidableEq, Repr

/-- Read `a[i]` of a `long` array, failing outside the array. -/
def readAt (a : List Int) (i : Int) : Except Err Int :=
  if 0 ≤ i then
    match a.get? i.toNat with
    | some v => Except.ok v
    | none => Except.error Err.outOfBounds
  else Except.error Err.outOfBounds

/-! ## Playlist generator -/

/-- The array `playlist[i] = i` for `0 ≤ i < songs` built by the `for` loop of
`setup_playlist`. -/
def identity_playlist (songs : Int) : List Int :=
  (List.range songs.toNat).map Int.ofNat

/-- Function `setup_playlist`: fill the array with `0 .. songs-1`, re-seed the generator
with `random_seed` and shuffle.  Returns the playlist and the player state with
the generator as the shuffle left it. -/
def setup_playlist {G : Type} (E : Env G) (p : Player G) (songs : Int) :
    List Int × Player G :=
  let playlist := identity_playlist songs
  let g := E.srand (p.random_seed % UINT_MOD)
  let r := E.shuffle_long g playlist songs
  (r.1, { p with rng := r.2 })

/-! ## Sequencer -/

/-- Statement `random_seed++` on an `unsigned long`. -/
def seed_succ (s : Nat) : Nat := (s + 1) % ULONG_MOD

/-- Statement `random_seed--` on an `unsigned long`. -/
def seed_pred (s : Nat) : Nat := (s + ULONG_MOD - 1) % ULONG_MOD

/-- Function `get_next_subsong`: the number of the subsong that is to be played next,
with the player state it leaves. -/
def get_next_subsong {G : Type} (E : Env G) (p : Player G) (gbs : Gbs) :
    Except Err (Int × Player G) :=
  match p.playmode with
  | Playmode.PLAYMODE_RANDOM =>
    let r := E.rand_long p.rng gbs.songs
    Except.ok (r.1, { p with rng := r.2 })
  | Playmode.PLAYMODE_SHUFFLE =>
    let p1 := { p with subsong_playlist_idx := p.subsong_playlist_idx + 1 }
    let p2 :=
      if p1.subsong_playlist_idx = gbs.songs then
        let p3 := { p1 with random_seed := seed_succ p1.random_seed }
        let r := setup_playlist E p3 gbs.songs
        { r.2 with subsong_playlist := r.1, subsong_playlist_idx := 0 }
      else p1
    match readAt p2.subsong_playlist p2.subsong_playlist_idx with
    | Except.ok next => Except.ok (next, p2)
    | Except.error e => Except.error e
  | Playmode.PLAYMODE_LINEAR =>
    Except.ok (gbs.subsong + 1, p)

/-- Function `get_prev_subsong`: the number of the subsong that has been played
previously, with the player state it leaves.  The C function returns `int`;
subsong numbers are far below `2^31`, so the conversion from `long` is not
modelled. -/
def get_prev_subsong {G : Type} (E : Env G) (p : Player G) (gbs : Gbs) :
    Except Err (Int × Player G) :=
  match p.playmode with
  | Playmode.PLAYMODE_RANDOM =>
    let r := E.rand_long p.rng gbs.songs
    Except.ok (r.1, { p with rng := r.2 })
  | Playmode.PLAYMODE_SHUFFLE =>
    let p1 := { p with subsong_playlist_idx := p.subsong_playlist_idx - 1 }
    let p2 :=
      if p1.subsong_playlist_idx = -1 then
        let p3 := { p1 with random_seed := seed_pred p1.random_seed }
        let r := setup_playlist E p3 gbs.songs
        { r.2 with subsong_playlist := r.1, subsong_playlist_idx := gbs.songs - 1 }
      else p1
    match readAt p2.subsong_playlist p2.subsong_playlist_idx with
    | Except.ok prev => Except.ok (prev, p2)
    | Except.error e => Except.error e
  | Playmode.PLAYMODE_LINEAR =>
    Except.ok (gbs.subsong - 1, p)

/-- The `while (subsong_playlist[0] != gbs->subsong)` loop of `setup_playmode`:
increment the seed and rebuild the playlist until the wanted subsong is first.
`fuel` bounds the number of iterations. -/
def seek_start {G : Type} (E : Env G) (gbs : Gbs) : Nat → Player G → Except Err (Player G)
  | 0, p =>
    match readAt p.subsong_playlist 0 with
    | Except.error e => Except.error e
    | Except.ok first =>
      if first ≠ gbs.subsong then Except.error Err.outOfFuel else Except.ok p
  | fuel + 1, p =>
    match readAt p.subsong_playlist 0 with
    | Except.error e => Except.error e
    | Except.ok first =>
      if first ≠ gbs.subsong then
        let p1 := { p with random_seed := seed_succ p.random_seed }
        let r := setup_playlist E p1 gbs.songs
        seek_start E gbs fuel { r.2 with subsong_playlist := r.1 }
      else Except.ok p

/-- Function `setup_playmode`: initialise the chosen play mode (set the start subsong
etc.). -/
def setup_playmode {G : Type} (E : Env G) (fuel : Nat) (p : Player G) (gbs : Gbs) :
    Except Err (Player G × Gbs) :=
  match p.playmode with
  | Playmode.PLAYMODE_RANDOM =>
    if gbs.subsong = -1 then
      match get_next_subsong E p gbs with
      | Except.ok (next, p1) => Except.ok (p1, { gbs with subsong := next })
      | Except.error e => Except.error e
    else Except.ok (p, gbs)
  | Playmode.PLAYMODE_SHUFFLE =>
    let r := setup_playlist E p gbs.songs
    let p1 := { r.2 with subsong_playlist := r.1, subsong_playlist_idx := 0 }
    if gbs.subsong = -1 then
      match readAt p1.subsong_playlist 0 with
      | Except.ok first => Except.ok (p1, { gbs with subsong := first })
      | Except.error e => Except.error e
    else
      match seek_start E gbs fuel p1 with
      | Except.ok p2 => Except.ok (p2, gbs)
      | Except.error e => Except.error e
  | Playmode.PLAYMODE_LINEAR =>
    if gbs.subsong = -1 then
      Except.ok (p, { gbs with subsong := gbs.defaultsong - 1 })
    else Except.ok (p, gbs)

/-- Modelled from the spec: `gbs_init` of `gbs.c`, whose body is not part of
`player.c`: it reinitialises the sound engine for the given subsong and makes
it the current subsong. -/
def gbs_init (gbs : Gbs) (subsong : Int) : Gbs :=
  { gbs with subsong := subsong }

/-- The statement `if (sound_skip) sound_skip(subsong);`. -/
def skip_calls {G : Type} (p : Player G) (subsong : Int) : List Call :=
  if p.has_sound_skip then [Call.sound_skip subsong] else []

/-- The result of `nextsubsong_cb`: the value returned, the state left behind
and the calls made to the engine and the sink, in order. -/
structure CbResult (G : Type) where
  ret : Bool
  player : Player G
  gbs : Gbs
  calls : List Call
  deriving DecidableEq, Repr

/-- Function `nextsubsong_cb`: called by the engine when the current subsong has ended. -/
def nextsubsong_cb {G : Type} (E : Env G) (fuel : Nat) (p : Player G) (gbs : Gbs) :
    Except Err (CbResult G) :=
  match get_next_subsong E p gbs with
  | Except.error e => Except.error e
  | Except.ok (subsong, p1) =>
    if gbs.subsong = p1.subsong_stop ∨ subsong ≥ gbs.songs then
      if p1.loopmode ≠ 0 then
        let subsong1 := p1.subsong_start
        match setup_playmode E fuel p1 gbs with
        | Except.error e => Except.error e
        | Except.ok (p2, gbs2) =>
          Except.ok ⟨true, p2, gbs_init gbs2 subsong1,
            Call.gbs_init subsong1 :: skip_calls p2 subsong1⟩
      else Except.ok ⟨false, p1, gbs, []⟩
    else
      Except.ok ⟨true, p1, gbs_init gbs subsong,
        Call.gbs_init subsong :: skip_calls p1 subsong⟩

/-! ## Session setup -/

/-- The block `sanitize commandline values` of `common_init`: the new values of
`subsong_start` and `subsong_stop`. -/
def sanitize (songs subsong_start subsong_stop : Int) : Int × Int :=
  let start :=
    if subsong_start < -1 then 0
    else if subsong_start ≥ songs then songs - 1
    else subsong_start
  let stop :=
    if subsong_stop < 0 then -1
    else if subsong_stop ≥ songs then -1
    else subsong_stop
  (start, stop)

/-- The result of session setup: the state left behind and the calls made to
the engine and the sink, in order. -/
structure InitResult (G : Type) where
  player : Player G
  gbs : Gbs
  calls : List Call
  deriving DecidableEq, Repr

/-- The part of `common_init` after `gbs_open`: sanitise the range, copy the
settings into the engine, set up the play mode and start the first subsong.
`p` holds the file-level variables after option parsing and `gbs` is the
collection returned by `gbs_open`. -/
def common_init {G : Type} (E : Env G) (fuel : Nat) (p : Player G) (gbs : Gbs) :
    Except Err (InitResult G) :=
  let r := sanitize gbs.songs p.subsong_start p.subsong_stop
  let p1 := { p with subsong_start := r.1, subsong_stop := r.2 }
  let gbs1 := { gbs with subsong := p1.subsong_start,
                         subsong_timeout := p1.subsong_timeout,
                         silence_timeout := p1.silence_timeout,
                         gap := p1.subsong_gap,
                         fadeout := p1.fadeout }
  match setup_playmode E fuel p1 gbs1 with
  | Except.error e => Except.error e
  | Except.ok (p2, gbs2) =>
    Except.ok ⟨p2, gbs_init gbs2 gbs2.subsong,
      Call.gbs_init gbs2.subsong :: skip_calls p2 gbs2.subsong⟩


/-- The player the engine drives: every time a subsong ends the engine calls
`nextsubsong_cb`, and it stops when the callback returns false.  The results of
at most `n` successive calls, in order. -/
def run_boundaries {G : Type} (E : Env G) (fuel : Nat) :
    Nat → Player G → Gbs → Except Err (List (CbResult G))
  | 0, _, _ => Except.ok []
  | n + 1, p, gbs =>
    match nextsubsong_cb E fuel p gbs with
    | Except.error e => Except.error e
    | Except.ok r =>
      if r.ret then
        match run_boundaries E fuel n r.player r.gbs with
        | Except.error e => Except.error e
        | Except.ok rs => Except.ok (r :: rs)
      else Except.ok [r]

/-! ## Buffer relay -/

/-- Number of values of an `int`, to which a `short` operand is promoted. -/
def INT_MOD : Nat := 4294967296

/-- Largest value of a `long` (LP64). -/
def LONG_MAX : Int := 9223372036854775807

/-- The two's complement bit pattern of an `int`. -/
def int_bits (v : Int) : Nat := (v % (INT_MOD : Int)).toNat

/-- The `int` with the given bit pattern. -/
def int_of_bits (n : Nat) : Int :=
  if n < INT_MOD / 2 then (n : Int) else (n : Int) - (INT_MOD : Int)

/-- The operator `&` on `int`. -/
def int_and (a b : Int) : Int := int_of_bits (int_bits a &&& int_bits b)

/-- The operator `|` on `int`. -/
def int_or (a b : Int) : Int := int_of_bits (int_bits a ||| int_bits b)

/-- The operator `<<` on a non-negative `int` whose result is representable. -/
def int_shl (a : Int) (n : Nat) : Int := a * 2 ^ n

/-- The operator `>>` on `int` (arithmetic shift: rounds towards minus
infinity). -/
def int_shr (a : Int) (n : Nat) : Int := a / 2 ^ n

/-- Conversion of an `int` to `short` on assignment: reduction modulo `2^16`
into `[-32768, 32767]`. -/
def to_short (v : Int) : Int := (v + 32768) % 65536 - 32768

/-- The body of the loop of `swap_endian` for one sample:
`short x = data[i]; data[i] = ((x & 0xff) << 8) | (x >> 8);`. -/
def swap_sample (x : Int) : Int :=
  to_short (int_or (int_shl (int_and x 0xff) 8) (int_shr x 8))

/-- Function `swap_endian`: the loop `for (i=0; i<buf->bytes/sizeof(short); i++)` over the
samples of the buffer; the bound is computed in `size_t`.  The loop reads and
writes `data[0 .. n-1]`; when the array holds fewer than `n` samples it runs
past the array. -/
def swap_endian (buf : gbhw_buffer) : Except Err gbhw_buffer :=
  let n := (buf.bytes % (ULONG_MOD : Int)).toNat / 2
  if n ≤ buf.data.length then
    Except.ok { buf with data :=
      (List.range n).foldl (fun d i => d.set i (swap_sample (d.getD i 0))) buf.data }
  else Except.error Err.outOfBounds

/-- Modelled from the spec: `is_le_machine` of `common.h`, whose body is not
part of `player.c`: whether the host is little-endian. -/
def is_le_machine (host : HostEndian) : Bool :=
  match host with
  | HostEndian.little => true
  | HostEndian.big => false

/-- Modelled from the spec: `is_be_machine` of `common.h`, whose body is not
part of `player.c`: whether the host is big-endian. -/
def is_be_machine (host : HostEndian) : Bool :=
  match host with
  | HostEndian.little => false
  | HostEndian.big => true

/-- The two bytes of a 16-bit sample as they lie in the host's memory. -/
def sample_bytes (host : HostEndian) (x : Int) : List Nat :=
  let u := (x % 65536).toNat
  match host with
  | HostEndian.little => [u % 256, u / 256]
  | HostEndian.big => [u / 256, u % 256]

/-- The bytes of an `int16_t` array as they lie in the host's memory. -/
def buffer_bytes (host : HostEndian) : List Int → List Nat
  | [] => []
  | x :: rest => sample_bytes host x ++ buffer_bytes host rest

/-- What the sink receives from `sound_write(data, len)`: the `len` bytes at
`data`.  A length beyond the end of the array makes the sink read past it. -/
def sound_write (host : HostEndian) (data : List Int) (len : Nat) : Except Err (List Nat) :=
  if len ≤ (buffer_bytes host data).length then
    Except.ok ((buffer_bytes host data).take len)
  else Except.error Err.outOfBounds

/-- Function `callback`: called by the engine with a filled buffer.  `endian` is the
file-level variable of that name.  Returns the bytes handed to the sink and the
buffer as it is left; the length `buf->pos*2*sizeof(int16_t)` is computed in
`size_t`. -/
def callback (host : HostEndian) (endian : plugout_endian) (buf : gbhw_buffer) :
    Except Err (List Nat × gbhw_buffer) :=
  let swapped :=
    if (is_le_machine host ∧ endian = plugout_endian.PLUGOUT_ENDIAN_BIG) ∨
       (is_be_machine host ∧ endian = plugout_endian.PLUGOUT_ENDIAN_LITTLE) then
      swap_endian buf
    else Except.ok buf
  match swapped with
  | Except.error e => Except.error e
  | Except.ok buf1 =>
    let len := ((buf1.pos * 2 * 2) % (ULONG_MOD : Int)).toNat
    match sound_write host buf1.data len with
    | Except.error e => Except.error e
    | Except.ok written => Except.ok (written, { buf1 with pos := 0 })

/-- The condition of the `if` in `callback`, as a proposition. -/
def swap_needed (host : HostEndian) (endian : plugout_endian) : Prop :=
  (is_le_machine host ∧ endian = plugout_endian.PLUGOUT_ENDIAN_BIG) ∨
  (is_be_machine host ∧ endian = plugout_endian.PLUGOUT_ENDIAN_LITTLE)

instance (host : HostEndian) (endian : plugout_endian) : Decidable (swap_needed host endian) := by
  unfold swap_needed
  infer_instance

/-- The result of the callback that moves to subsong `s` in Linear mode. -/
def linear_step_result {G : Type} (p : Player G) (gbs : Gbs) (s : Int) : CbResult G :=
  ⟨true, p, gbs_init gbs s, Call.gbs_init s :: skip_calls p s⟩

/-! ## Elapsed-time accounting -/

/-- The minutes and seconds shown to the user (`struct displaytime`). -/
structure displaytime where
  played_min : Int
  played_sec : Int
  total_min : Int
  total_sec : Int
  deriving DecidableEq, Repr

/-- Function `update_displaytime`: `GBHW_CLOCK` is a constant of `gbhw.h` and is taken as
a parameter; `/` and `%` of C truncate towards zero; `subsong_timeout` is the
file-level variable. -/
def update_displaytime {G : Type} (GBHW_CLOCK : Int) (p : Player G) (gbs : Gbs) :
    Except Err displaytime :=
  let played := Int.tdiv gbs.ticks GBHW_CLOCK
  match readAt gbs.subsong_info gbs.subsong with
  | Except.error e => Except.error e
  | Except.ok len =>
    let total0 := Int.tdiv len 1024
    let total := if total0 = 0 then p.subsong_timeout else total0
    Except.ok { played_min := Int.tdiv played 60, played_sec := Int.tmod played 60,
                total_min := Int.tdiv total 60, total_sec := Int.tmod total 60 }

/-! ## File names -/

/-- The `while (*p != 0)` loop of `filename_only`: `rest` is the text at `p`,
`ret` the text at `ret`. -/
def filename_only_loop : List Char → List Char → List Char
  | [], ret => ret
  | c :: rest, ret => if c = '/' then filename_only_loop rest rest else filename_only_loop rest ret

/-- Function `filename_only`: the text after the last `/` of a path.  A C string
is the list of its characters before the terminating NUL. -/
def filename_only (with_pathname : List Char) : List Char :=
  filename_only_loop with_pathname with_pathname

/-- The bytes of a buffer with the two bytes of every 16-bit sample exchanged,
in the words of the specification (byte-swap every 16-bit sample). -/
def byte_swapped : List Nat → List Nat
  | a :: b :: rest => b :: a :: byte_swapped rest
  | rest => rest

/-- The byte order the sink asks for, in the words of the specification:
`native` asks for the host's own byte order. -/
def required_byte_order (endian : plugout_endian) (host : HostEndian) : HostEndian :=
  match endian with
  | plugout_endian.PLUGOUT_ENDIAN_BIG => HostEndian.big
  | plugout_endian.PLUGOUT_ENDIAN_LITTLE => HostEndian.little
  | plugout_endian.PLUGOUT_ENDIAN_NATIVE => host

/-! ## A concrete environment

A small deterministic generator, used to evaluate the definitions on concrete
inputs: the state is a counter, `shuffle_long` rotates the array by the counter
and `rand_long` reduces the counter modulo the bound. -/

/-- A concrete generator: seeding stores the seed, shuffling rotates. -/
def rotEnv : Env Nat where
  srand := fun s => s
  shuffle_long := fun g a _ => (a.rotate g, g + 1)
  rand_long := fun g n => (((g % n.toNat : Nat) : Int), g + 1)

/-- A collection of `songs` subsongs whose default subsong is `defaultsong`
(one-based), before any subsong is selected. -/
def mkGbs (songs defaultsong : Int) : Gbs :=
  { songs := songs, defaultsong := defaultsong, subsong := -1, ticks := 0,
    subsong_info := List.replicate songs.toNat 0, subsong_timeout := 0,
    silence_timeout := 0, gap := 0, fadeout := 0 }

/-- The file-level variables with the initial values `player.c` gives them, for
the given play mode, loop flag, range and seed; the sink has a skip hook. -/
def mkPlayer (mode : Playmode) (loopmode start stop : Int) (seed : Nat) : Player Nat :=
  { playmode := mode, loopmode := loopmode, subsong_start := start,
    subsong_stop := stop, subsong_timeout := 2 * 60, silence_timeout := 2,
    subsong_gap := 2, fadeout := 3, subsong_playlist := [],
    subsong_playlist_idx := 0, random_seed := seed, rng := seed,
    has_sound_skip := true }


/-- The playlist `setup_playlist` returns when `random_seed` is `seed`. -/
def playlist_of {G : Type} (E : Env G) (seed : Nat) (songs : Int) : List Int :=
  (E.shuffle_long (E.srand (seed % UINT_MOD)) (identity_playlist songs) songs).1

/-- Modelled from the spec: what the specification takes a proper shuffle
function to be (`shuffle_long` and `srand`, whose bodies are not part of
`player.c`): it only rearranges the array it is handed, and for a collection of
`songs` subsongs it places each subsong first at some seed. -/
def proper_shuffle {G : Type} (E : Env G) (songs : Int) : Prop :=
  (∀ g a n, (E.shuffle_long g a n).1.Perm a) ∧
  ∀ k : Int, 0 ≤ k → k < songs →
    ∃ seed : Nat, readAt (playlist_of E seed songs) 0 = Except.ok k

/-- Function `get_next_subsong` followed by `get_prev_subsong`: the subsong the
second call returns and the player state it leaves. -/
def next_then_prev {G : Type} (E : Env G) (p : Player G) (gbs : Gbs) :
    Except Err (Int × Player G) :=
  match get_next_subsong E p gbs with
  | Except.error e => Except.error e
  | Except.ok r => get_prev_subsong E r.2 gbs

/-- Function `get_prev_subsong` followed by `get_next_subsong`: the subsong the
second call returns and the player state it leaves. -/
def prev_then_next {G : Type} (E : Env G) (p : Player G) (gbs : Gbs) :
    Except Err (Int × Player G) :=
  match get_prev_subsong E p gbs with
  | Except.error e => Except.error e
  | Except.ok r => get_next_subsong E r.2 gbs

/-! ## Playlist generator: theorems -/

theorem identity_playlist_length (songs : Int) :
    (identity_playlist songs).length = songs.toNat := by
  simp [identity_playlist]

theorem identity_playlist_nodup (songs : Int) : (identity_playlist songs).Nodup := by
  unfold identity_playlist
  exact (List.nodup_range _).map Int.ofNat_injective

theorem mem_identity_playlist (songs v : Int) :
    v ∈ identity_playlist songs ↔ 0 ≤ v ∧ v < songs := by
  unfold identity_playlist
  simp only [List.mem_map, List.mem_range]
  constructor
  · rintro ⟨i, hi, rfl⟩
    simp only [Int.ofNat_eq_coe]
    omega
  · rintro ⟨h0, h1⟩
    exact ⟨v.toNat, by omega, by simp only [Int.ofNat_eq_coe]; omega⟩

/-- The playlist returned by `setup_playlist` is the shuffle of the identity
array under the generator seeded with `random_seed`. -/
theorem setup_playlist_fst {G : Type} (E : Env G) (p : Player G) (songs : Int) :
    (setup_playlist E p songs).1 =
      (E.shuffle_long (E.srand (p.random_seed % UINT_MOD)) (identity_playlist songs) songs).1 :=
  rfl

/-- Function `setup_playlist` changes no file-level variable but the generator state. -/
theorem setup_playlist_snd {G : Type} (E : Env G) (p : Player G) (songs : Int) :
    (setup_playlist E p songs).2 =
      { p with rng :=
        (E.shuffle_long (E.srand (p.random_seed % UINT_MOD)) (identity_playlist songs) songs).2 } :=
  rfl

/-- C1: for every `N > 0` and every player state (so every `random_seed`), if
`shuffle_long` only rearranges the array it is handed, then `setup_playlist N`
returns a sequence of length `N` in which each of `0 .. N-1` occurs exactly once
and nothing else occurs: a permutation of `[0, N)`. -/
theorem setup_playlist_permutation {G : Type} (E : Env G)
    (hshuffle : ∀ g a n, (E.shuffle_long g a n).1.Perm a)
    (p : Player G) (N : Int) (hN : 0 < N) :
    ((setup_playlist E p N).1.length : Int) = N ∧
    (∀ v : Int, 0 ≤ v → v < N → (setup_playlist E p N).1.count v = 1) ∧
    (∀ v : Int, v ∈ (setup_playlist E p N).1 → 0 ≤ v ∧ v < N) := by
  have hperm : (setup_playlist E p N).1.Perm (identity_playlist N) := by
    rw [setup_playlist_fst]
    exact hshuffle _ _ _
  refine ⟨?_, ?_, ?_⟩
  · rw [hperm.length_eq, identity_playlist_length]
    omega
  · intro v h0 h1
    rw [hperm.count_eq]
    exact List.count_eq_one_of_mem (identity_playlist_nodup N)
      ((mem_identity_playlist N v).2 ⟨h0, h1⟩)
  · intro v hv
    exact (mem_identity_playlist N v).1 (hperm.mem_iff.1 hv)

/-- The rotation used by `rotEnv` only rearranges the array. -/
theorem rotEnv_shuffle_perm (g : Nat) (a : List Int) (n : Int) :
    (rotEnv.shuffle_long g a n).1.Perm a :=
  List.rotate_perm a g

/-- C1 at a concrete input: four subsongs, seed 5, rotating shuffle. -/
theorem setup_playlist_permutation_witness :
    (0 : Int) < 4 ∧
    (((setup_playlist rotEnv (mkPlayer Playmode.PLAYMODE_SHUFFLE 0 (-1) (-1) 5) 4).1.length
        : Int) = 4 ∧
     (∀ v : Int, 0 ≤ v → v < 4 →
        (setup_playlist rotEnv (mkPlayer Playmode.PLAYMODE_SHUFFLE 0 (-1) (-1) 5) 4).1.count v
          = 1) ∧
     (∀ v : Int,
        v ∈ (setup_playlist rotEnv (mkPlayer Playmode.PLAYMODE_SHUFFLE 0 (-1) (-1) 5) 4).1 →
          0 ≤ v ∧ v < 4)) :=
  ⟨by decide,
   setup_playlist_permutation rotEnv rotEnv_shuffle_perm
     (mkPlayer Playmode.PLAYMODE_SHUFFLE 0 (-1) (-1) 5) 4 (by decide)⟩

/-- C2: the playlist depends on `random_seed` and `N` only.  Two calls of
`setup_playlist N` from player states with the same `random_seed` return the same
sequence, whatever the state of the shared generator (and of every other
variable) before each call, and both leave the generator in the same state. -/
theorem setup_playlist_deterministic {G : Type} (E : Env G) (p q : Player G) (N : Int)
    (hseed : p.random_seed = q.random_seed) :
    (setup_playlist E p N).1 = (setup_playlist E q N).1 ∧
    (setup_playlist E p N).2.rng = (setup_playlist E q N).2.rng := by
  simp [setup_playlist, hseed]

/-- C2 at a concrete input: seed 5, generator states 0 and 77. -/
theorem setup_playlist_deterministic_witness :
    ({ mkPlayer Playmode.PLAYMODE_SHUFFLE 0 (-1) (-1) 5 with rng := 0 }).random_seed =
      ({ mkPlayer Playmode.PLAYMODE_SHUFFLE 0 (-1) (-1) 5 with rng := 77 }).random_seed ∧
    ((setup_playlist rotEnv { mkPlayer Playmode.PLAYMODE_SHUFFLE 0 (-1) (-1) 5 with rng := 0 }
        4).1 =
      (setup_playlist rotEnv { mkPlayer Playmode.PLAYMODE_SHUFFLE 0 (-1) (-1) 5 with rng := 77 }
        4).1 ∧
     (setup_playlist rotEnv { mkPlayer Playmode.PLAYMODE_SHUFFLE 0 (-1) (-1) 5 with rng := 0 }
        4).2.rng =
      (setup_playlist rotEnv { mkPlayer Playmode.PLAYMODE_SHUFFLE 0 (-1) (-1) 5 with rng := 77 }
        4).2.rng) :=
  ⟨rfl,
   setup_playlist_deterministic rotEnv
     { mkPlayer Playmode.PLAYMODE_SHUFFLE 0 (-1) (-1) 5 with rng := 0 }
     { mkPlayer Playmode.PLAYMODE_SHUFFLE 0 (-1) (-1) 5 with rng := 77 } 4 rfl⟩

/-! ## Buffer relay: theorems -/

theorem sample_bytes_length (host : HostEndian) (x : Int) :
    (sample_bytes host x).length = 2 := by
  cases host <;> rfl

theorem buffer_bytes_length (host : HostEndian) (data : List Int) :
    (buffer_bytes host data).length = 2 * data.length := by
  induction data with
  | nil => rfl
  | cons x rest ih =>
    simp only [buffer_bytes, List.length_append, sample_bytes_length, ih, List.length_cons]
    omega

/-- The first `2 * k` bytes of an array are the bytes of its first `k`
samples. -/
theorem buffer_bytes_take (host : HostEndian) (data : List Int) (k : Nat) :
    (buffer_bytes host data).take (2 * k) = buffer_bytes host (data.take k) := by
  induction data generalizing k with
  | nil => simp [buffer_bytes]
  | cons x rest ih =>
    cases k with
    | zero => simp [buffer_bytes]
    | succ k =>
      have h2 : 2 * (k + 1) = 2 * k + 2 := by omega
      rw [h2, List.take_succ_cons]
      cases host <;> simp [buffer_bytes, sample_bytes, ih]

/-- The loop of `swap_endian` over the indices above 0 leaves entry 0 alone. -/
theorem swap_loop_cons (y : Int) (idx : List Nat) (xs : List Int) :
    (idx.map Nat.succ).foldl (fun d i => d.set i (swap_sample (d.getD i 0))) (y :: xs) =
      y :: idx.foldl (fun d i => d.set i (swap_sample (d.getD i 0))) xs := by
  induction idx generalizing xs with
  | nil => rfl
  | cons i rest ih =>
    rw [List.map_cons, List.foldl_cons, List.foldl_cons]
    exact ih _

/-- The loop of `swap_endian` over a whole array applies the loop body to every
sample, each at its own index. -/
theorem swap_loop_map (data : List Int) :
    (List.range data.length).foldl (fun d i => d.set i (swap_sample (d.getD i 0))) data =
      data.map swap_sample := by
  induction data with
  | nil => rfl
  | cons x rest ih =>
    rw [List.length_cons, List.range_succ_eq_map, List.foldl_cons]
    show ((List.range rest.length).map Nat.succ).foldl
        (fun d i => d.set i (swap_sample (d.getD i 0))) (swap_sample x :: rest) = _
    rw [swap_loop_cons, ih, List.map_cons]

/-- On a buffer whose array holds `bytes / 2` samples `swap_endian` replaces
every sample by the result of the loop body and changes nothing else. -/
theorem swap_endian_map (buf : gbhw_buffer) (h0 : 0 ≤ buf.bytes) (hlong : buf.bytes ≤ LONG_MAX)
    (hdata : (buf.data.length : Int) = buf.bytes / 2) :
    swap_endian buf = Except.ok { buf with data := buf.data.map swap_sample } := by
  have hn : (buf.bytes % (ULONG_MOD : Int)).toNat / 2 = buf.data.length := by
    simp only [ULONG_MOD, LONG_MAX] at *
    omega
  simp only [swap_endian, hn, le_refl, if_true, swap_loop_map]

/-- The condition of the `if` in `callback` holds exactly when the byte order
the sink asks for differs from the host's. -/
theorem swap_needed_iff (host : HostEndian) (endian : plugout_endian) :
    swap_needed host endian ↔ required_byte_order endian host ≠ host := by
  cases host <;> cases endian <;>
    simp [swap_needed, required_byte_order, is_le_machine, is_be_machine]

/-- C4: `swap_endian` does not exchange the two bytes of a sample whose top bit
is set.  The sample `0xABCD` (the `short` -21555) is replaced by `0xFFAB` (-85),
not by `0xCDAB` (-12885): `x >> 8` is computed on the sign-extended `int`, so its
bits 8 to 15 are all ones and the `|` loses the old low byte.  The samples
`[0x1234, 0xABCD]` relayed to a big-endian sink on a little-endian host are
forwarded as the bytes `12 34 AB FF`; the bytes `12 34 AB CD` are not what the
sink receives. -/
theorem swap_endian_loses_low_byte_of_negative_sample :
    swap_sample (-21555) = -85 ∧
    sample_bytes HostEndian.little (-21555) = [0xCD, 0xAB] ∧
    sample_bytes HostEndian.little (swap_sample (-21555)) = [0xAB, 0xFF] ∧
    swap_endian ⟨[0x1234, -21555], 1, 4⟩ = Except.ok ⟨[0x3412, -85], 1, 4⟩ ∧
    callback HostEndian.little plugout_endian.PLUGOUT_ENDIAN_BIG ⟨[0x1234, -21555], 1, 4⟩ =
      Except.ok ([0x12, 0x34, 0xAB, 0xFF], ⟨[0x3412, -85], 0, 4⟩) ∧
    (callback HostEndian.little plugout_endian.PLUGOUT_ENDIAN_BIG
        ⟨[0x1234, -21555], 1, 4⟩).map (fun r => r.1) ≠
      Except.ok [0x12, 0x34, 0xAB, 0xCD] := by
  decide

/-- C5: for every buffer whose cursor `pos` is non-negative with
`4 * pos ≤ bytes`, whose capacity is a `long` and whose array `data` holds
`bytes / 2` samples, `callback` returns, and the bytes it hands the sink are
exactly the first `4 * pos` bytes of the buffer: the bytes of the first
`2 * pos` samples of `data` (each passed through the loop body of `swap_endian`
when the byte orders differ), `4 * pos` of them and none from beyond the
cursor.  The buffer is left with these samples, the cursor at 0 and the capacity
unchanged. -/
theorem callback_writes_filled_frames (host : HostEndian) (endian : plugout_endian)
    (buf : gbhw_buffer) (hpos : 0 ≤ buf.pos) (hcap : 4 * buf.pos ≤ buf.bytes)
    (hlong : buf.bytes ≤ LONG_MAX) (hdata : (buf.data.length : Int) = buf.bytes / 2) :
    callback host endian buf =
      Except.ok
        ((buffer_bytes host
            (if swap_needed host endian then buf.data.map swap_sample else buf.data)).take
              (4 * buf.pos).toNat,
         ⟨if swap_needed host endian then buf.data.map swap_sample else buf.data, 0,
           buf.bytes⟩) ∧
    (buffer_bytes host
        (if swap_needed host endian then buf.data.map swap_sample else buf.data)).take
          (4 * buf.pos).toNat =
      buffer_bytes host
        (if swap_needed host endian then (buf.data.take (2 * buf.pos).toNat).map swap_sample
         else buf.data.take (2 * buf.pos).toNat) ∧
    (((buffer_bytes host
        (if swap_needed host endian then buf.data.map swap_sample else buf.data)).take
          (4 * buf.pos).toNat).length : Int) = 4 * buf.pos := by
  have hlen : ((buf.pos * 2 * 2) % (ULONG_MOD : Int)).toNat = (4 * buf.pos).toNat := by
    simp only [ULONG_MOD, LONG_MAX] at *
    omega
  have hk : (4 * buf.pos).toNat = 2 * (2 * buf.pos).toNat := by omega
  have hdl : (if swap_needed host endian then buf.data.map swap_sample else buf.data).length
      = buf.data.length := by
    split
    · exact List.length_map _ _
    · rfl
  have hfit : (4 * buf.pos).toNat ≤
      (buffer_bytes host
        (if swap_needed host endian then buf.data.map swap_sample else buf.data)).length := by
    rw [buffer_bytes_length, hdl]
    omega
  refine ⟨?_, ?_, ?_⟩
  · by_cases hs : swap_needed host endian
    · have hs2 : (is_le_machine host ∧ endian = plugout_endian.PLUGOUT_ENDIAN_BIG) ∨
          (is_be_machine host ∧ endian = plugout_endian.PLUGOUT_ENDIAN_LITTLE) := hs
      rw [if_pos hs] at hfit
      simp only [callback, if_pos hs2, if_pos hs,
        swap_endian_map buf (by omega) hlong hdata, sound_write, hlen, if_pos hfit]
    · have hs2 : ¬ ((is_le_machine host ∧ endian = plugout_endian.PLUGOUT_ENDIAN_BIG) ∨
          (is_be_machine host ∧ endian = plugout_endian.PLUGOUT_ENDIAN_LITTLE)) := hs
      rw [if_neg hs] at hfit
      simp only [callback, if_neg hs2, if_neg hs, sound_write, hlen, if_pos hfit]
  · rw [hk, buffer_bytes_take]
    split
    · rw [List.map_take]
    · rfl
  · rw [List.length_take]
    omega

/-- C5 at a concrete input: one frame written into a buffer of two frames, on a
little-endian host for a big-endian sink: only the two samples of the first
frame are sent, byte-swapped. -/
theorem callback_writes_filled_frames_witness :
    callback HostEndian.little plugout_endian.PLUGOUT_ENDIAN_BIG
        ⟨[0x1234, 0x0102, 7, 8], 1, 8⟩ =
      Except.ok ([0x12, 0x34, 0x01, 0x02], ⟨[0x3412, 0x0201, 0x0700, 0x0800], 0, 8⟩) ∧
    (callback HostEndian.little plugout_endian.PLUGOUT_ENDIAN_BIG
        ⟨[0x1234, 0x0102, 7, 8], 1, 8⟩ =
      Except.ok
        ((buffer_bytes HostEndian.little
            (if swap_needed HostEndian.little plugout_endian.PLUGOUT_ENDIAN_BIG then
              [0x1234, 0x0102, 7, 8].map swap_sample else [0x1234, 0x0102, 7, 8])).take
              (4 * (1 : Int)).toNat,
         ⟨if swap_needed HostEndian.little plugout_endian.PLUGOUT_ENDIAN_BIG then
            [0x1234, 0x0102, 7, 8].map swap_sample else [0x1234, 0x0102, 7, 8], 0, 8⟩) ∧
     (buffer_bytes HostEndian.little
        (if swap_needed HostEndian.little plugout_endian.PLUGOUT_ENDIAN_BIG then
          [0x1234, 0x0102, 7, 8].map swap_sample else [0x1234, 0x0102, 7, 8])).take
          (4 * (1 : Int)).toNat =
      buffer_bytes HostEndian.little
        (if swap_needed HostEndian.little plugout_endian.PLUGOUT_ENDIAN_BIG then
          (([0x1234, 0x0102, 7, 8] : List Int).take (2 * (1 : Int)).toNat).map swap_sample
         else ([0x1234, 0x0102, 7, 8] : List Int).take (2 * (1 : Int)).toNat) ∧
     (((buffer_bytes HostEndian.little
        (if swap_needed HostEndian.little plugout_endian.PLUGOUT_ENDIAN_BIG then
          [0x1234, 0x0102, 7, 8].map swap_sample else [0x1234, 0x0102, 7, 8])).take
          (4 * (1 : Int)).toNat).length : Int) = 4 * 1) :=
  ⟨by decide,
   callback_writes_filled_frames HostEndian.little plugout_endian.PLUGOUT_ENDIAN_BIG
     ⟨[0x1234, 0x0102, 7, 8], 1, 8⟩ (by decide) (by decide) (by decide) (by decide)⟩

/-- C6: when the byte orders differ `callback` does not hand the sink the
byte-swapped buffer.  On a big-endian host with a little-endian sink the samples
`[0x1234, 0xABCD]` lie in memory as `12 34 AB CD`; byte-swapped they are
`34 12 CD AB`, but the sink receives `34 12 FF AB`: `swap_endian` is run, as the
byte orders differ, and loses the low byte of the sample whose top bit is set.
With the native order or the host's own order asked for, the sink receives
`12 34 AB CD` unchanged. -/
theorem callback_does_not_byte_swap_negative_sample :
    buffer_bytes HostEndian.big [0x1234, -21555] = [0x12, 0x34, 0xAB, 0xCD] ∧
    byte_swapped (buffer_bytes HostEndian.big [0x1234, -21555]) = [0x34, 0x12, 0xCD, 0xAB] ∧
    callback HostEndian.big plugout_endian.PLUGOUT_ENDIAN_LITTLE ⟨[0x1234, -21555], 1, 4⟩ =
      Except.ok ([0x34, 0x12, 0xFF, 0xAB], ⟨[0x3412, -85], 0, 4⟩) ∧
    (callback HostEndian.big plugout_endian.PLUGOUT_ENDIAN_LITTLE
        ⟨[0x1234, -21555], 1, 4⟩).map (fun r => r.1) ≠
      Except.ok (byte_swapped (buffer_bytes HostEndian.big [0x1234, -21555])) ∧
    callback HostEndian.big plugout_endian.PLUGOUT_ENDIAN_NATIVE ⟨[0x1234, -21555], 1, 4⟩ =
      Except.ok ([0x12, 0x34, 0xAB, 0xCD], ⟨[0x1234, -21555], 0, 4⟩) ∧
    callback HostEndian.big plugout_endian.PLUGOUT_ENDIAN_BIG ⟨[0x1234, -21555], 1, 4⟩ =
      Except.ok ([0x12, 0x34, 0xAB, 0xCD], ⟨[0x1234, -21555], 0, 4⟩) := by
  decide

/-! ## Sequencer: theorems -/

theorem gbs_init_gbs_init (gbs : Gbs) (a b : Int) :
    gbs_init (gbs_init gbs a) b = gbs_init gbs b := rfl

theorem gbs_init_self (gbs : Gbs) (a : Int) (h : gbs.subsong = a) : gbs_init gbs a = gbs := by
  subst h
  rfl

/-- In Linear mode, away from the stop bound and from the end of the
collection, the callback moves to the next subsong. -/
theorem nextsubsong_cb_linear_step {G : Type} (E : Env G) (fuel : Nat) (p : Player G)
    (gbs : Gbs) (hmode : p.playmode = Playmode.PLAYMODE_LINEAR)
    (hstop : gbs.subsong ≠ p.subsong_stop) (hnext : gbs.subsong + 1 < gbs.songs) :
    nextsubsong_cb E fuel p gbs =
      Except.ok ⟨true, p, gbs_init gbs (gbs.subsong + 1),
        Call.gbs_init (gbs.subsong + 1) :: skip_calls p (gbs.subsong + 1)⟩ := by
  have hcond : ¬ (gbs.subsong = p.subsong_stop ∨ gbs.subsong + 1 ≥ gbs.songs) := by
    rintro (h | h)
    · exact hstop h
    · omega
  simp only [nextsubsong_cb, get_next_subsong, hmode, hcond, if_false]

/-- In Linear mode without looping, the callback made at the last subsong
reports that the sequence is complete and calls neither the engine nor the
sink. -/
theorem nextsubsong_cb_linear_end {G : Type} (E : Env G) (fuel : Nat) (p : Player G)
    (gbs : Gbs) (hmode : p.playmode = Playmode.PLAYMODE_LINEAR) (hloop : p.loopmode = 0)
    (hnext : gbs.songs ≤ gbs.subsong + 1) :
    nextsubsong_cb E fuel p gbs = Except.ok ⟨false, p, gbs, []⟩ := by
  have hcond : gbs.subsong = p.subsong_stop ∨ gbs.subsong + 1 ≥ gbs.songs := Or.inr hnext
  simp [nextsubsong_cb, get_next_subsong, hmode, hcond, hloop]

theorem run_boundaries_linear {G : Type} (E : Env G) (fuel : Nat) (p : Player G)
    (hmode : p.playmode = Playmode.PLAYMODE_LINEAR) (hloop : p.loopmode = 0)
    (hstop : p.subsong_stop = -1) :
    ∀ (m : Nat) (gbs : Gbs) (n : Nat), 0 ≤ gbs.subsong → gbs.subsong + m + 1 = gbs.songs →
      m + 1 ≤ n →
      run_boundaries E fuel n p gbs =
        Except.ok ((List.range m).map
            (fun i => linear_step_result p gbs (gbs.subsong + 1 + Int.ofNat i)) ++
          [⟨false, p, gbs_init gbs (gbs.songs - 1), []⟩]) := by
  intro m
  induction m with
  | zero =>
    intro gbs n h0 hm hn
    obtain ⟨n, rfl⟩ : ∃ k, n = k + 1 := ⟨n - 1, by omega⟩
    have hend := nextsubsong_cb_linear_end E fuel p gbs hmode hloop (by omega)
    have hself : gbs_init gbs (gbs.songs - 1) = gbs := gbs_init_self gbs _ (by omega)
    simp [run_boundaries, hend, hself]
  | succ m ih =>
    intro gbs n h0 hm hn
    obtain ⟨n, rfl⟩ : ∃ k, n = k + 1 := ⟨n - 1, by omega⟩
    have hstep := nextsubsong_cb_linear_step E fuel p gbs hmode (by omega) (by omega)
    have hrec := ih (gbs_init gbs (gbs.subsong + 1)) n
      (by simp only [gbs_init]; omega) (by simp only [gbs_init]; omega) (by omega)
    simp only [run_boundaries, hstep, hrec, if_true]
    rw [List.range_succ_eq_map, List.map_cons, List.map_map]
    simp only [linear_step_result, gbs_init, List.cons_append, Function.comp_def,
      Int.ofNat_eq_coe, Nat.cast_succ, Nat.cast_zero, add_zero]
    congr 3
    apply List.map_congr_left
    intro i _
    have : gbs.subsong + 1 + 1 + (i : Int) = gbs.subsong + 1 + ((i : Int) + 1) := by ring
    rw [this]

/-- In Linear mode `setup_playmode` only replaces an unset current subsong by
the default subsong. -/
theorem setup_playmode_linear {G : Type} (E : Env G) (fuel : Nat) (p : Player G) (gbs : Gbs)
    (hmode : p.playmode = Playmode.PLAYMODE_LINEAR) :
    setup_playmode E fuel p gbs =
      Except.ok (p, if gbs.subsong = -1 then { gbs with subsong := gbs.defaultsong - 1 }
        else gbs) := by
  simp only [setup_playmode, hmode]
  split <;> rfl

/-- C7: in Linear mode with looping enabled, the callback made while the current
subsong equals the stop bound reinitialises the engine with the configured start
subsong and returns true; with `start ≤ stop` that subsong is not `current + 1`. -/
theorem nextsubsong_cb_loops_to_start {G : Type} (E : Env G) (fuel : Nat) (p : Player G)
    (gbs : Gbs) (hmode : p.playmode = Playmode.PLAYMODE_LINEAR) (hloop : p.loopmode ≠ 0)
    (hcur : gbs.subsong = p.subsong_stop) (hle : p.subsong_start ≤ p.subsong_stop) :
    nextsubsong_cb E fuel p gbs =
      Except.ok ⟨true, p, gbs_init gbs p.subsong_start,
        Call.gbs_init p.subsong_start :: skip_calls p p.subsong_start⟩ ∧
    p.subsong_start ≠ gbs.subsong + 1 := by
  refine ⟨?_, by omega⟩
  have hcond : gbs.subsong = p.subsong_stop ∨ gbs.subsong + 1 ≥ gbs.songs := Or.inl hcur
  simp only [nextsubsong_cb, get_next_subsong, hmode]
  rw [if_pos hcond, if_pos hloop, setup_playmode_linear E fuel p gbs hmode]
  by_cases hnone : gbs.subsong = -1
  · rw [if_pos hnone]
    rfl
  · rw [if_neg hnone]

/-- C7 at the input of the specification: `loop = true`, `start = 2`, `stop = 5`,
`N = 10`, current subsong 5: the engine is reinitialised with 2. -/
theorem nextsubsong_cb_loops_to_start_witness :
    nextsubsong_cb rotEnv 0 (mkPlayer Playmode.PLAYMODE_LINEAR 1 2 5 0)
        { mkGbs 10 1 with subsong := 5 } =
      Except.ok ⟨true, mkPlayer Playmode.PLAYMODE_LINEAR 1 2 5 0,
        { mkGbs 10 1 with subsong := 2 }, [Call.gbs_init 2, Call.sound_skip 2]⟩ ∧
    (2 : Int) ≠ 5 + 1 :=
  nextsubsong_cb_loops_to_start rotEnv 0 (mkPlayer Playmode.PLAYMODE_LINEAR 1 2 5 0)
    { mkGbs 10 1 with subsong := 5 } rfl (by decide) rfl (by decide)

/-- C8: in Linear mode with looping off and no stop bound, starting at subsong
`k` with `0 ≤ k < N`, the successive callbacks reinitialise the engine with
`k+1, k+2, ..., N-1` in that order, each returning true, and the callback made
at subsong `N-1` returns false without calling the engine or the sink; the run
ends there however many more callbacks the engine would make. -/
theorem linear_plays_up_to_last {G : Type} (E : Env G) (fuel : Nat) (p : Player G)
    (gbs : Gbs) (N k : Int) (n : Nat)
    (hmode : p.playmode = Playmode.PLAYMODE_LINEAR) (hloop : p.loopmode = 0)
    (hstop : p.subsong_stop = -1) (hN : gbs.songs = N) (hk : gbs.subsong = k)
    (h0 : 0 ≤ k) (h1 : k < N) (hn : N - k ≤ n) :
    run_boundaries E fuel n p gbs =
      Except.ok ((List.range (N - 1 - k).toNat).map
          (fun i => (⟨true, p, gbs_init gbs (k + 1 + Int.ofNat i),
            Call.gbs_init (k + 1 + Int.ofNat i) :: skip_calls p (k + 1 + Int.ofNat i)⟩
              : CbResult G)) ++
        [⟨false, p, gbs_init gbs (N - 1), []⟩]) := by
  have h := run_boundaries_linear E fuel p hmode hloop hstop (N - 1 - k).toNat gbs n
    (by omega) (by omega) (by omega)
  rw [h, hN, hk]
  rfl

/-- C8 at a concrete input: four subsongs, starting at subsong 1. -/
theorem linear_plays_up_to_last_witness :
    run_boundaries rotEnv 0 5 (mkPlayer Playmode.PLAYMODE_LINEAR 0 (-1) (-1) 0)
        { mkGbs 4 1 with subsong := 1 } =
      Except.ok [
        ⟨true, mkPlayer Playmode.PLAYMODE_LINEAR 0 (-1) (-1) 0,
          { mkGbs 4 1 with subsong := 2 }, [Call.gbs_init 2, Call.sound_skip 2]⟩,
        ⟨true, mkPlayer Playmode.PLAYMODE_LINEAR 0 (-1) (-1) 0,
          { mkGbs 4 1 with subsong := 3 }, [Call.gbs_init 3, Call.sound_skip 3]⟩,
        ⟨false, mkPlayer Playmode.PLAYMODE_LINEAR 0 (-1) (-1) 0,
          { mkGbs 4 1 with subsong := 3 }, []⟩] :=
  linear_plays_up_to_last rotEnv 0 (mkPlayer Playmode.PLAYMODE_LINEAR 0 (-1) (-1) 0)
    { mkGbs 4 1 with subsong := 1 } 4 1 5 rfl rfl rfl rfl rfl (by decide) (by decide)
    (by decide)

/-- C3: the callback hands the engine and the sink the index -1.  In Linear mode
with looping on and no start subsong requested (`subsong_start = -1`, which
sanitising keeps), a collection of three subsongs with default subsong 1 is set
up at subsong 0; the callbacks then select 1 and 2, and the callback made at the
last subsong takes the loop branch and passes `subsong_start = -1` to `gbs_init`
and to `sound_skip`. -/
theorem loop_restart_passes_unset_start :
    (common_init rotEnv 0 (mkPlayer Playmode.PLAYMODE_LINEAR 1 (-1) (-1) 0)
        (mkGbs 3 1)).map (fun r => (r.player.subsong_start, r.calls)) =
      Except.ok (-1, [Call.gbs_init 0, Call.sound_skip 0]) ∧
    ((common_init rotEnv 0 (mkPlayer Playmode.PLAYMODE_LINEAR 1 (-1) (-1) 0)
        (mkGbs 3 1)).bind (fun r => run_boundaries rotEnv 0 3 r.player r.gbs)).map
        (fun rs => rs.map (fun r => (r.ret, r.calls))) =
      Except.ok [(true, [Call.gbs_init 1, Call.sound_skip 1]),
                 (true, [Call.gbs_init 2, Call.sound_skip 2]),
                 (true, [Call.gbs_init (-1), Call.sound_skip (-1)])] ∧
    (nextsubsong_cb rotEnv 0 (mkPlayer Playmode.PLAYMODE_LINEAR 1 (-1) (-1) 0)
        { mkGbs 3 1 with subsong := 2 }).map (fun r => (r.ret, r.calls)) =
      Except.ok (true, [Call.gbs_init (-1), Call.sound_skip (-1)]) := by
  decide

/-! ## Session setup: theorems -/

theorem playmode_cases (m : Playmode) :
    m = Playmode.PLAYMODE_LINEAR ∨ m = Playmode.PLAYMODE_RANDOM ∨
      m = Playmode.PLAYMODE_SHUFFLE := by
  cases m <;> simp

/-- The seek loop of `setup_playmode` changes neither the range bounds nor the
mode and loop flag. -/
theorem seek_start_frame {G : Type} (E : Env G) (gbs : Gbs) :
    ∀ (fuel : Nat) (p q : Player G), seek_start E gbs fuel p = Except.ok q →
      q.subsong_start = p.subsong_start ∧ q.subsong_stop = p.subsong_stop ∧
      q.playmode = p.playmode ∧ q.loopmode = p.loopmode := by
  intro fuel
  induction fuel with
  | zero =>
    intro p q h
    unfold seek_start at h
    split at h
    · cases h
    · split at h
      · cases h
      · cases h
        exact ⟨rfl, rfl, rfl, rfl⟩
  | succ fuel ih =>
    intro p q h
    unfold seek_start at h
    split at h
    · cases h
    · split at h
      · have h2 := ih _ _ h
        exact ⟨h2.1, h2.2.1, h2.2.2.1, h2.2.2.2⟩
      · cases h
        exact ⟨rfl, rfl, rfl, rfl⟩

/-- Function `get_next_subsong` changes neither the range bounds nor the mode and loop
flag. -/
theorem get_next_subsong_frame {G : Type} (E : Env G) (p q : Player G) (gbs : Gbs) (next : Int)
    (h : get_next_subsong E p gbs = Except.ok (next, q)) :
    q.subsong_start = p.subsong_start ∧ q.subsong_stop = p.subsong_stop ∧
    q.playmode = p.playmode ∧ q.loopmode = p.loopmode := by
  rcases playmode_cases p.playmode with hm | hm | hm
  · simp only [get_next_subsong, hm] at h
    cases h
    exact ⟨rfl, rfl, rfl, rfl⟩
  · simp only [get_next_subsong, hm] at h
    cases h
    refine ⟨?_, ?_, ?_, ?_⟩ <;> first | rfl | exact hm.symm
  · simp only [get_next_subsong, hm] at h
    split at h
    · cases h
      split <;> refine ⟨?_, ?_, ?_, ?_⟩ <;> first | rfl | exact hm.symm
    · cases h

/-- Function `setup_playmode` changes neither the range bounds nor the mode and loop
flag. -/
theorem setup_playmode_frame {G : Type} (E : Env G) (fuel : Nat) (p q : Player G)
    (gbs gbs2 : Gbs) (h : setup_playmode E fuel p gbs = Except.ok (q, gbs2)) :
    q.subsong_start = p.subsong_start ∧ q.subsong_stop = p.subsong_stop ∧
    q.playmode = p.playmode ∧ q.loopmode = p.loopmode := by
  rcases playmode_cases p.playmode with hm | hm | hm
  · rw [setup_playmode_linear E fuel p gbs hm] at h
    cases h
    exact ⟨rfl, rfl, rfl, rfl⟩
  · simp only [setup_playmode, hm] at h
    split at h
    · split at h
      · rename_i hnext
        cases h
        exact get_next_subsong_frame E p _ gbs _ hnext
      · cases h
    · cases h
      exact ⟨rfl, rfl, rfl, rfl⟩
  · simp only [setup_playmode, hm] at h
    split at h
    · split at h
      · cases h
        exact ⟨rfl, rfl, rfl, rfl⟩
      · cases h
    · split at h
      · rename_i hs
        cases h
        have h2 := seek_start_frame E gbs fuel _ _ hs
        exact ⟨h2.1, h2.2.1, h2.2.2.1, h2.2.2.2⟩
      · cases h

/-- C9: session setup clamps the requested range.  For a collection of
`N ≥ 1` subsongs: a start below -1 becomes 0, a start `≥ N` becomes `N-1`, any
other start is kept; a stop below 0 or `≥ N` becomes -1, any other stop is kept;
so both bounds end in `[-1, N-1]`.  These are the bounds `common_init` leaves in
the player state. -/
theorem common_init_clamps_range {G : Type} (E : Env G) (fuel : Nat) (p : Player G)
    (gbs : Gbs) (hN : 1 ≤ gbs.songs) :
    (p.subsong_start < -1 → (sanitize gbs.songs p.subsong_start p.subsong_stop).1 = 0) ∧
    (gbs.songs ≤ p.subsong_start →
      (sanitize gbs.songs p.subsong_start p.subsong_stop).1 = gbs.songs - 1) ∧
    (-1 ≤ p.subsong_start → p.subsong_start < gbs.songs →
      (sanitize gbs.songs p.subsong_start p.subsong_stop).1 = p.subsong_start) ∧
    (p.subsong_stop < 0 → (sanitize gbs.songs p.subsong_start p.subsong_stop).2 = -1) ∧
    (gbs.songs ≤ p.subsong_stop →
      (sanitize gbs.songs p.subsong_start p.subsong_stop).2 = -1) ∧
    (0 ≤ p.subsong_stop → p.subsong_stop < gbs.songs →
      (sanitize gbs.songs p.subsong_start p.subsong_stop).2 = p.subsong_stop) ∧
    (-1 ≤ (sanitize gbs.songs p.subsong_start p.subsong_stop).1 ∧
      (sanitize gbs.songs p.subsong_start p.subsong_stop).1 ≤ gbs.songs - 1) ∧
    (-1 ≤ (sanitize gbs.songs p.subsong_start p.subsong_stop).2 ∧
      (sanitize gbs.songs p.subsong_start p.subsong_stop).2 ≤ gbs.songs - 1) ∧
    (∀ r, common_init E fuel p gbs = Except.ok r →
      r.player.subsong_start = (sanitize gbs.songs p.subsong_start p.subsong_stop).1 ∧
      r.player.subsong_stop = (sanitize gbs.songs p.subsong_start p.subsong_stop).2) := by
  refine ⟨?_, ?_, ?_, ?_, ?_, ?_, ?_, ?_, ?_⟩
  · intro h
    simp only [sanitize, if_pos h]
  · intro h
    simp only [sanitize]
    rw [if_neg (by omega), if_pos (by omega)]
  · intro h1 h2
    simp only [sanitize]
    rw [if_neg (by omega), if_neg (by omega)]
  · intro h
    simp only [sanitize, if_pos h]
  · intro h
    simp only [sanitize]
    rw [if_neg (by omega), if_pos (by omega)]
  · intro h1 h2
    simp only [sanitize]
    rw [if_neg (by omega), if_neg (by omega)]
  · simp only [sanitize]
    split_ifs <;> omega
  · simp only [sanitize]
    split_ifs <;> omega
  · intro r h
    unfold common_init at h
    simp only at h
    split at h
    · cases h
    · rename_i hs
      cases h
      have hf := setup_playmode_frame E fuel _ _ _ _ hs
      exact ⟨hf.1, hf.2.1⟩

/-- C9 at concrete inputs: ten subsongs, start `-5` and stop `12` (zero-based)
are set up as start 0 and no stop bound. -/
theorem common_init_clamps_range_witness :
    (sanitize 10 (-5) 12 = (0, -1)) ∧
    (common_init rotEnv 0 (mkPlayer Playmode.PLAYMODE_LINEAR 0 (-5) 12 0) (mkGbs 10 1)).map
        (fun r => (r.player.subsong_start, r.player.subsong_stop)) = Except.ok (0, -1) ∧
    ((-5 : Int) < -1 → (sanitize 10 (-5) 12).1 = 0) :=
  ⟨by decide, by decide,
   (common_init_clamps_range rotEnv 0 (mkPlayer Playmode.PLAYMODE_LINEAR 0 (-5) 12 0)
      (mkGbs 10 1) (by decide)).1⟩

/-- C10: session setup does not order the bounds.  With ten subsongs the
request start 5, stop 2 (zero-based) is left as it is: both bounds are set
afterwards and `start ≤ stop` fails, and the stop bound is not disabled. -/
theorem common_init_keeps_reversed_range :
    sanitize 10 5 2 = (5, 2) ∧
    (common_init rotEnv 0 (mkPlayer Playmode.PLAYMODE_LINEAR 0 5 2 0) (mkGbs 10 1)).map
        (fun r => (r.player.subsong_start, r.player.subsong_stop)) = Except.ok (5, 2) ∧
    ¬ (∀ N start stop : Int, 1 ≤ N → 0 ≤ (sanitize N start stop).1 →
        0 ≤ (sanitize N start stop).2 → (sanitize N start stop).1 ≤ (sanitize N start stop).2) := by
  refine ⟨by decide, by decide, ?_⟩
  intro h
  exact absurd (h 10 5 2 (by decide) (by decide) (by decide)) (by decide)

/-- C10, amended: when the requested start is at most the requested stop and
the stop bound is set after session setup, `start ≤ stop` holds afterwards; and
a request whose two values both lie in `[0, N)` is kept as it is, in whichever
order they are. -/
theorem sanitize_keeps_order_of_request (N start stop : Int)
    (hreq : start ≤ stop) (ht : 0 ≤ (sanitize N start stop).2) :
    (sanitize N start stop).1 ≤ (sanitize N start stop).2 ∧
    (∀ a b : Int, 0 ≤ a → a < N → 0 ≤ b → b < N → sanitize N a b = (a, b)) := by
  constructor
  · simp only [sanitize] at *
    split_ifs at * <;> omega
  · intro a b ha0 ha1 hb0 hb1
    simp only [sanitize]
    rw [if_neg (by omega), if_neg (by omega), if_neg (by omega), if_neg (by omega)]

/-- C10, amended, at a concrete input: start `-5`, stop 7 of ten subsongs. -/
theorem sanitize_keeps_order_of_request_witness :
    (-5 : Int) ≤ 7 ∧ sanitize 10 (-5) 7 = (0, 7) ∧
    ((sanitize 10 (-5) 7).1 ≤ (sanitize 10 (-5) 7).2 ∧
     (∀ a b : Int, 0 ≤ a → a < 10 → 0 ≤ b → b < 10 → sanitize 10 a b = (a, b))) :=
  ⟨by decide, by decide,
   sanitize_keeps_order_of_request 10 (-5) 7 (by decide) (by decide)⟩

/-! ## Shuffle navigation: theorems -/

theorem readAt_of_lt (a : List Int) (i : Int) (h0 : 0 ≤ i) (h1 : i < a.length) :
    ∃ v, readAt a i = Except.ok v ∧ v ∈ a := by
  have hlt : i.toNat < a.length := by omega
  refine ⟨a.get ⟨i.toNat, hlt⟩, ?_, List.get_mem _ _ _⟩
  simp only [readAt, if_pos h0, List.get?_eq_get hlt]

theorem playlist_of_eq {G : Type} (E : Env G) (p : Player G) (songs : Int) :
    (setup_playlist E p songs).1 = playlist_of E p.random_seed songs := rfl

theorem playlist_of_length {G : Type} (E : Env G)
    (hshuffle : ∀ g a n, (E.shuffle_long g a n).1.Perm a) (seed : Nat) (N : Int)
    (hN : 0 ≤ N) : ((playlist_of E seed N).length : Int) = N := by
  unfold playlist_of
  rw [(hshuffle _ _ _).length_eq, identity_playlist_length]
  omega

theorem mem_playlist_of {G : Type} (E : Env G)
    (hshuffle : ∀ g a n, (E.shuffle_long g a n).1.Perm a) (seed : Nat) (N v : Int)
    (hv : v ∈ playlist_of E seed N) : 0 ≤ v ∧ v < N := by
  unfold playlist_of at hv
  exact (mem_identity_playlist N v).1 ((hshuffle _ _ _).mem_iff.1 hv)

theorem seed_pred_succ (s : Nat) (hs : s < ULONG_MOD) : seed_pred (seed_succ s) = s := by
  simp only [seed_pred, seed_succ, ULONG_MOD] at *
  omega

theorem seed_succ_pred (s : Nat) (hs : s < ULONG_MOD) : seed_succ (seed_pred s) = s := by
  simp only [seed_pred, seed_succ, ULONG_MOD] at *
  omega

/-- In Shuffle mode away from the end of the playlist `get_next_subsong` moves
the cursor one entry forward and changes nothing else. -/
theorem get_next_subsong_inner {G : Type} (E : Env G) (p : Player G) (gbs : Gbs)
    (hmode : p.playmode = Playmode.PLAYMODE_SHUFFLE)
    (hidx : p.subsong_playlist_idx + 1 ≠ gbs.songs) :
    get_next_subsong E p gbs =
      match readAt p.subsong_playlist (p.subsong_playlist_idx + 1) with
      | Except.ok next =>
        Except.ok (next, { p with subsong_playlist_idx := p.subsong_playlist_idx + 1 })
      | Except.error e => Except.error e := by
  simp only [get_next_subsong, hmode, if_neg hidx]

/-- In Shuffle mode at the end of the playlist `get_next_subsong` increments the
seed, rebuilds the playlist from it and moves the cursor to entry 0. -/
theorem get_next_subsong_wrap {G : Type} (E : Env G) (p : Player G) (gbs : Gbs)
    (hmode : p.playmode = Playmode.PLAYMODE_SHUFFLE)
    (hidx : p.subsong_playlist_idx + 1 = gbs.songs) :
    get_next_subsong E p gbs =
      match readAt (playlist_of E (seed_succ p.random_seed) gbs.songs) 0 with
      | Except.ok next =>
        Except.ok (next,
          { p with subsong_playlist := playlist_of E (seed_succ p.random_seed) gbs.songs,
                   subsong_playlist_idx := 0,
                   random_seed := seed_succ p.random_seed,
                   rng := (E.shuffle_long (E.srand (seed_succ p.random_seed % UINT_MOD))
                            (identity_playlist gbs.songs) gbs.songs).2 })
      | Except.error e => Except.error e := by
  simp only [get_next_subsong, hmode, if_pos hidx]
  rfl

/-- In Shuffle mode away from the start of the playlist `get_prev_subsong` moves
the cursor one entry back and changes nothing else. -/
theorem get_prev_subsong_inner {G : Type} (E : Env G) (p : Player G) (gbs : Gbs)
    (hmode : p.playmode = Playmode.PLAYMODE_SHUFFLE)
    (hidx : p.subsong_playlist_idx - 1 ≠ -1) :
    get_prev_subsong E p gbs =
      match readAt p.subsong_playlist (p.subsong_playlist_idx - 1) with
      | Except.ok prev =>
        Except.ok (prev, { p with subsong_playlist_idx := p.subsong_playlist_idx - 1 })
      | Except.error e => Except.error e := by
  simp only [get_prev_subsong, hmode, if_neg hidx]

/-- In Shuffle mode at the start of the playlist `get_prev_subsong` decrements
the seed, rebuilds the playlist from it and moves the cursor to the last entry. -/
theorem get_prev_subsong_wrap {G : Type} (E : Env G) (p : Player G) (gbs : Gbs)
    (hmode : p.playmode = Playmode.PLAYMODE_SHUFFLE)
    (hidx : p.subsong_playlist_idx - 1 = -1) :
    get_prev_subsong E p gbs =
      match readAt (playlist_of E (seed_pred p.random_seed) gbs.songs) (gbs.songs - 1) with
      | Except.ok prev =>
        Except.ok (prev,
          { p with subsong_playlist := playlist_of E (seed_pred p.random_seed) gbs.songs,
                   subsong_playlist_idx := gbs.songs - 1,
                   random_seed := seed_pred p.random_seed,
                   rng := (E.shuffle_long (E.srand (seed_pred p.random_seed % UINT_MOD))
                            (identity_playlist gbs.songs) gbs.songs).2 })
      | Except.error e => Except.error e := by
  simp only [get_prev_subsong, hmode, if_pos hidx]
  rfl

/-- A step forward inside the playlist followed by a step back. -/
theorem next_then_prev_inner {G : Type} (E : Env G) (p : Player G) (gbs : Gbs) (v : Int)
    (hmode : p.playmode = Playmode.PLAYMODE_SHUFFLE)
    (h0 : 0 ≤ p.subsong_playlist_idx)
    (h1 : p.subsong_playlist_idx + 1 < p.subsong_playlist.length)
    (hN : p.subsong_playlist_idx + 1 ≠ gbs.songs)
    (hv : readAt p.subsong_playlist p.subsong_playlist_idx = Except.ok v) :
    next_then_prev E p gbs = Except.ok (v, p) := by
  obtain ⟨w, hw, -⟩ := readAt_of_lt p.subsong_playlist (p.subsong_playlist_idx + 1)
    (by omega) h1
  have hback : p.subsong_playlist_idx + 1 - 1 = p.subsong_playlist_idx := by omega
  simp only [next_then_prev, get_next_subsong_inner E p gbs hmode hN, hw]
  rw [get_prev_subsong_inner E
    { p with subsong_playlist_idx := p.subsong_playlist_idx + 1 } gbs hmode
    (by simp only; omega)]
  simp only [hback, hv]

/-- A step back inside the playlist followed by a step forward. -/
theorem prev_then_next_inner {G : Type} (E : Env G) (p : Player G) (gbs : Gbs) (v : Int)
    (hmode : p.playmode = Playmode.PLAYMODE_SHUFFLE)
    (h0 : 0 < p.subsong_playlist_idx)
    (h1 : p.subsong_playlist_idx < p.subsong_playlist.length)
    (hN : p.subsong_playlist_idx ≠ gbs.songs)
    (hv : readAt p.subsong_playlist p.subsong_playlist_idx = Except.ok v) :
    prev_then_next E p gbs = Except.ok (v, p) := by
  obtain ⟨w, hw, -⟩ := readAt_of_lt p.subsong_playlist (p.subsong_playlist_idx - 1)
    (by omega) (by omega)
  have hback : p.subsong_playlist_idx - 1 + 1 = p.subsong_playlist_idx := by omega
  simp only [prev_then_next, get_prev_subsong_inner E p gbs hmode (by omega), hw]
  rw [get_next_subsong_inner E
    { p with subsong_playlist_idx := p.subsong_playlist_idx - 1 } gbs hmode
    (by simp only; omega)]
  simp only [hback, hv]

/-- C11: in Shuffle mode, for a playlist of `N` entries (so also for every
`N ≥ 2`) and a cursor `i` in `[0, N)` with entry `v` at the cursor: when `i < N-1`, `get_next_subsong`
followed by `get_prev_subsong` returns `v` and leaves every variable (cursor,
seed, playlist) as it was; when `0 < i`, so does `get_prev_subsong` followed by
`get_next_subsong`. -/
theorem shuffle_step_and_back {G : Type} (E : Env G) (p : Player G) (gbs : Gbs) (N i : Int)
    (hmode : p.playmode = Playmode.PLAYMODE_SHUFFLE) (hN : gbs.songs = N)
    (hlen : (p.subsong_playlist.length : Int) = N)
    (hi : p.subsong_playlist_idx = i) (hi0 : 0 ≤ i) (hi1 : i < N) :
    ∃ v, readAt p.subsong_playlist i = Except.ok v ∧
      (i < N - 1 → next_then_prev E p gbs = Except.ok (v, p)) ∧
      (0 < i → prev_then_next E p gbs = Except.ok (v, p)) := by
  obtain ⟨v, hv, -⟩ := readAt_of_lt p.subsong_playlist i hi0 (by omega)
  subst hi
  refine ⟨v, hv, ?_, ?_⟩
  · intro h
    exact next_then_prev_inner E p gbs v hmode hi0 (by omega) (by omega) hv
  · intro h
    exact prev_then_next_inner E p gbs v hmode h (by omega) (by omega) hv

/-- C11 at a concrete input: the playlist `[2, 0, 3, 1]` with the cursor at
entry 1, which holds subsong 0. -/
theorem shuffle_step_and_back_witness :
    ∃ v, readAt [2, 0, 3, 1] 1 = Except.ok v ∧
      ((1 : Int) < 4 - 1 →
        next_then_prev rotEnv
          { mkPlayer Playmode.PLAYMODE_SHUFFLE 0 (-1) (-1) 7 with
              subsong_playlist := [2, 0, 3, 1], subsong_playlist_idx := 1 } (mkGbs 4 1) =
          Except.ok (v, { mkPlayer Playmode.PLAYMODE_SHUFFLE 0 (-1) (-1) 7 with
              subsong_playlist := [2, 0, 3, 1], subsong_playlist_idx := 1 })) ∧
      ((0 : Int) < 1 →
        prev_then_next rotEnv
          { mkPlayer Playmode.PLAYMODE_SHUFFLE 0 (-1) (-1) 7 with
              subsong_playlist := [2, 0, 3, 1], subsong_playlist_idx := 1 } (mkGbs 4 1) =
          Except.ok (v, { mkPlayer Playmode.PLAYMODE_SHUFFLE 0 (-1) (-1) 7 with
              subsong_playlist := [2, 0, 3, 1], subsong_playlist_idx := 1 })) :=
  shuffle_step_and_back rotEnv
    { mkPlayer Playmode.PLAYMODE_SHUFFLE 0 (-1) (-1) 7 with
        subsong_playlist := [2, 0, 3, 1], subsong_playlist_idx := 1 }
    (mkGbs 4 1) 4 1 rfl rfl (by decide) rfl (by decide) (by decide)

/-- C12: in Shuffle mode with a permuting `shuffle_long` and `N ≥ 1` subsongs.
At cursor `N-1` `get_next_subsong` sets the seed to `seed+1` (as an
`unsigned long`), the cursor to 0, the playlist to the one generated from the
new seed and returns its entry 0.  At cursor 0 `get_prev_subsong` sets the seed
to `seed-1`, the cursor to `N-1`, the playlist to the one generated from the new
seed and returns its entry `N-1`.  At any other cursor neither function changes
the seed or the playlist. -/
theorem shuffle_regeneration_boundary {G : Type} (E : Env G)
    (hshuffle : ∀ g a n, (E.shuffle_long g a n).1.Perm a)
    (p : Player G) (gbs : Gbs) (N : Int)
    (hmode : p.playmode = Playmode.PLAYMODE_SHUFFLE) (hN : gbs.songs = N) (h1 : 1 ≤ N) :
    (p.subsong_playlist_idx = N - 1 →
      ∃ v q, readAt (playlist_of E (seed_succ p.random_seed) N) 0 = Except.ok v ∧
        get_next_subsong E p gbs = Except.ok (v, q) ∧
        q.random_seed = seed_succ p.random_seed ∧ q.subsong_playlist_idx = 0 ∧
        q.subsong_playlist = playlist_of E (seed_succ p.random_seed) N) ∧
    (p.subsong_playlist_idx = 0 →
      ∃ v q, readAt (playlist_of E (seed_pred p.random_seed) N) (N - 1) = Except.ok v ∧
        get_prev_subsong E p gbs = Except.ok (v, q) ∧
        q.random_seed = seed_pred p.random_seed ∧ q.subsong_playlist_idx = N - 1 ∧
        q.subsong_playlist = playlist_of E (seed_pred p.random_seed) N) ∧
    (p.subsong_playlist_idx ≠ N - 1 → ∀ r, get_next_subsong E p gbs = Except.ok r →
      r.2.random_seed = p.random_seed ∧ r.2.subsong_playlist = p.subsong_playlist) ∧
    (p.subsong_playlist_idx ≠ 0 → ∀ r, get_prev_subsong E p gbs = Except.ok r →
      r.2.random_seed = p.random_seed ∧ r.2.subsong_playlist = p.subsong_playlist) ∧
    (p.random_seed + 1 < ULONG_MOD → seed_succ p.random_seed = p.random_seed + 1) ∧
    (0 < p.random_seed → p.random_seed < ULONG_MOD →
      seed_pred p.random_seed = p.random_seed - 1) := by
  subst hN
  refine ⟨?_, ?_, ?_, ?_, ?_, ?_⟩
  · intro hi
    have hlen := playlist_of_length E hshuffle (seed_succ p.random_seed) gbs.songs (by omega)
    obtain ⟨v, hv, -⟩ := readAt_of_lt (playlist_of E (seed_succ p.random_seed) gbs.songs) 0
      (by omega) (by omega)
    have hget := get_next_subsong_wrap E p gbs hmode (by omega)
    simp only [hv] at hget
    exact ⟨v, _, hv, hget, rfl, rfl, rfl⟩
  · intro hi
    have hlen := playlist_of_length E hshuffle (seed_pred p.random_seed) gbs.songs (by omega)
    obtain ⟨v, hv, -⟩ := readAt_of_lt (playlist_of E (seed_pred p.random_seed) gbs.songs)
      (gbs.songs - 1) (by omega) (by omega)
    have hget := get_prev_subsong_wrap E p gbs hmode (by omega)
    simp only [hv] at hget
    exact ⟨v, _, hv, hget, rfl, rfl, rfl⟩
  · intro hi r hr
    rw [get_next_subsong_inner E p gbs hmode (by omega)] at hr
    split at hr
    · cases hr
      exact ⟨rfl, rfl⟩
    · cases hr
  · intro hi r hr
    rw [get_prev_subsong_inner E p gbs hmode (by omega)] at hr
    split at hr
    · cases hr
      exact ⟨rfl, rfl⟩
    · cases hr
  · intro h
    simp only [seed_succ, ULONG_MOD] at *
    omega
  · intro h0 h
    simp only [seed_pred, ULONG_MOD] at *
    omega

/-- C12 at a concrete input: four subsongs, seed 5, rotating shuffle, cursor at
the last entry: the seed becomes 6 and entry 0 of the playlist of seed 6 is
returned. -/
theorem shuffle_regeneration_boundary_witness :
    get_next_subsong rotEnv
        { mkPlayer Playmode.PLAYMODE_SHUFFLE 0 (-1) (-1) 5 with
            subsong_playlist := [1, 2, 3, 0], subsong_playlist_idx := 3 } (mkGbs 4 1) =
      Except.ok (2, { mkPlayer Playmode.PLAYMODE_SHUFFLE 0 (-1) (-1) 5 with
            subsong_playlist := [2, 3, 0, 1], subsong_playlist_idx := 0,
            random_seed := 6, rng := 7 }) ∧
    ((3 : Int) = 4 - 1 →
      ∃ v q, readAt (playlist_of rotEnv (seed_succ 5) 4) 0 = Except.ok v ∧
        get_next_subsong rotEnv
          { mkPlayer Playmode.PLAYMODE_SHUFFLE 0 (-1) (-1) 5 with
              subsong_playlist := [1, 2, 3, 0], subsong_playlist_idx := 3 } (mkGbs 4 1) =
          Except.ok (v, q) ∧
        q.random_seed = seed_succ 5 ∧ q.subsong_playlist_idx = 0 ∧
        q.subsong_playlist = playlist_of rotEnv (seed_succ 5) 4) :=
  ⟨by decide,
   (shuffle_regeneration_boundary rotEnv rotEnv_shuffle_perm
      { mkPlayer Playmode.PLAYMODE_SHUFFLE 0 (-1) (-1) 5 with
          subsong_playlist := [1, 2, 3, 0], subsong_playlist_idx := 3 }
      (mkGbs 4 1) 4 rfl rfl (by decide)).1⟩

/-- The state `get_next_subsong` leaves at the end of the playlist, with a
permuting `shuffle_long`. -/
theorem get_next_subsong_wrap_ok {G : Type} (E : Env G)
    (hshuffle : ∀ g a n, (E.shuffle_long g a n).1.Perm a)
    (p : Player G) (gbs : Gbs) (hmode : p.playmode = Playmode.PLAYMODE_SHUFFLE)
    (hidx : p.subsong_playlist_idx + 1 = gbs.songs) (h1 : 1 ≤ gbs.songs) :
    ∃ v q, get_next_subsong E p gbs = Except.ok (v, q) ∧
      q.playmode = p.playmode ∧ q.random_seed = seed_succ p.random_seed ∧
      q.subsong_playlist_idx = 0 ∧
      q.subsong_playlist = playlist_of E (seed_succ p.random_seed) gbs.songs ∧
      q.subsong_stop = p.subsong_stop ∧ q.has_sound_skip = p.has_sound_skip ∧
      readAt q.subsong_playlist 0 = Except.ok v := by
  have hlen := playlist_of_length E hshuffle (seed_succ p.random_seed) gbs.songs (by omega)
  obtain ⟨v, hv, -⟩ := readAt_of_lt (playlist_of E (seed_succ p.random_seed) gbs.songs) 0
    (by omega) (by omega)
  have hget := get_next_subsong_wrap E p gbs hmode hidx
  simp only [hv] at hget
  exact ⟨v, _, hget, rfl, rfl, rfl, rfl, rfl, rfl, hv⟩

/-- The state `get_prev_subsong` leaves at the start of the playlist, with a
permuting `shuffle_long`. -/
theorem get_prev_subsong_wrap_ok {G : Type} (E : Env G)
    (hshuffle : ∀ g a n, (E.shuffle_long g a n).1.Perm a)
    (p : Player G) (gbs : Gbs) (hmode : p.playmode = Playmode.PLAYMODE_SHUFFLE)
    (hidx : p.subsong_playlist_idx - 1 = -1) (h1 : 1 ≤ gbs.songs) :
    ∃ v q, get_prev_subsong E p gbs = Except.ok (v, q) ∧
      q.playmode = p.playmode ∧ q.random_seed = seed_pred p.random_seed ∧
      q.subsong_playlist_idx = gbs.songs - 1 ∧
      q.subsong_playlist = playlist_of E (seed_pred p.random_seed) gbs.songs ∧
      readAt q.subsong_playlist (gbs.songs - 1) = Except.ok v := by
  have hlen := playlist_of_length E hshuffle (seed_pred p.random_seed) gbs.songs (by omega)
  obtain ⟨v, hv, -⟩ := readAt_of_lt (playlist_of E (seed_pred p.random_seed) gbs.songs)
    (gbs.songs - 1) (by omega) (by omega)
  have hget := get_prev_subsong_wrap E p gbs hmode hidx
  simp only [hv] at hget
  exact ⟨v, _, hget, rfl, rfl, rfl, rfl, hv⟩

/-- C18: in Shuffle mode with a permuting `shuffle_long`, for `N ≥ 1`, a seed in
the range of `unsigned long`, the playlist generated from that seed and a cursor
`i` in `[0, N)` holding subsong `v`: `get_next_subsong` followed by
`get_prev_subsong` returns `v` and leaves seed, cursor and playlist as they were,
also when the first call regenerates the playlist (cursor `N-1`); and so does
`get_prev_subsong` followed by `get_next_subsong`, also from cursor 0. -/
theorem shuffle_undo_across_regeneration {G : Type} (E : Env G)
    (hshuffle : ∀ g a n, (E.shuffle_long g a n).1.Perm a)
    (p : Player G) (gbs : Gbs) (N i : Int)
    (hmode : p.playmode = Playmode.PLAYMODE_SHUFFLE) (hN : gbs.songs = N) (h1 : 1 ≤ N)
    (hseed : p.random_seed < ULONG_MOD)
    (hpl : p.subsong_playlist = playlist_of E p.random_seed N)
    (hi : p.subsong_playlist_idx = i) (hi0 : 0 ≤ i) (hi1 : i < N) :
    ∃ v, readAt p.subsong_playlist i = Except.ok v ∧
      (∃ q, next_then_prev E p gbs = Except.ok (v, q) ∧ q.random_seed = p.random_seed ∧
        q.subsong_playlist_idx = i ∧ q.subsong_playlist = p.subsong_playlist) ∧
      (∃ q, prev_then_next E p gbs = Except.ok (v, q) ∧ q.random_seed = p.random_seed ∧
        q.subsong_playlist_idx = i ∧ q.subsong_playlist = p.subsong_playlist) := by
  subst hN
  subst hi
  have hlen : (p.subsong_playlist.length : Int) = gbs.songs := by
    rw [hpl]
    exact playlist_of_length E hshuffle _ _ (by omega)
  obtain ⟨v, hv, -⟩ := readAt_of_lt p.subsong_playlist p.subsong_playlist_idx hi0 (by omega)
  refine ⟨v, hv, ?_, ?_⟩
  · by_cases hend : p.subsong_playlist_idx + 1 = gbs.songs
    · obtain ⟨v1, q1, hq1, hm1, hs1, hi1q, -, -, -, -⟩ :=
        get_next_subsong_wrap_ok E hshuffle p gbs hmode hend h1
      obtain ⟨v2, q2, hq2, -, hs2, hi2, hp2, hr2⟩ :=
        get_prev_subsong_wrap_ok E hshuffle q1 gbs (hm1.trans hmode) (by omega) h1
      have hseed2 : q2.random_seed = p.random_seed := by
        rw [hs2, hs1, seed_pred_succ _ hseed]
      have hpl2 : q2.subsong_playlist = p.subsong_playlist := by
        rw [hp2, hs1, seed_pred_succ _ hseed, hpl]
      have hv2 : v2 = v := by
        have hidx : gbs.songs - 1 = p.subsong_playlist_idx := by omega
        rw [hpl2, hidx, hv] at hr2
        cases hr2
        rfl
      subst hv2
      refine ⟨q2, ?_, hseed2, by omega, hpl2⟩
      simp only [next_then_prev, hq1, hq2]
    · exact ⟨p, next_then_prev_inner E p gbs v hmode hi0 (by omega) hend hv, rfl, rfl, rfl⟩
  · by_cases hstart : p.subsong_playlist_idx = 0
    · obtain ⟨v1, q1, hq1, hm1, hs1, hi1q, -, -⟩ :=
        get_prev_subsong_wrap_ok E hshuffle p gbs hmode (by omega) h1
      obtain ⟨v2, q2, hq2, -, hs2, hi2, hp2, -, -, hr2⟩ :=
        get_next_subsong_wrap_ok E hshuffle q1 gbs (hm1.trans hmode) (by omega) h1
      have hseed2 : q2.random_seed = p.random_seed := by
        rw [hs2, hs1, seed_succ_pred _ hseed]
      have hpl2 : q2.subsong_playlist = p.subsong_playlist := by
        rw [hp2, hs1, seed_succ_pred _ hseed, hpl]
      have hv2 : v2 = v := by
        rw [hpl2, ← hstart, hv] at hr2
        cases hr2
        rfl
      subst hv2
      refine ⟨q2, ?_, hseed2, by omega, hpl2⟩
      simp only [prev_then_next, hq1, hq2]
    · exact ⟨p, prev_then_next_inner E p gbs v hmode (by omega) (by omega) (by omega) hv,
        rfl, rfl, rfl⟩

/-- C18 at a concrete input: four subsongs, seed 5, rotating shuffle, cursor at
the last entry of the playlist generated from seed 5. -/
theorem shuffle_undo_across_regeneration_witness :
    playlist_of rotEnv 5 4 = [1, 2, 3, 0] ∧
    (next_then_prev rotEnv
        { mkPlayer Playmode.PLAYMODE_SHUFFLE 0 (-1) (-1) 5 with
            subsong_playlist := [1, 2, 3, 0], subsong_playlist_idx := 3 }
        (mkGbs 4 1)).map (fun r => (r.1, r.2.random_seed, r.2.subsong_playlist_idx,
          r.2.subsong_playlist)) = Except.ok (0, 5, 3, [1, 2, 3, 0]) ∧
    (∃ v, readAt [1, 2, 3, 0] 3 = Except.ok v ∧
      (∃ q, next_then_prev rotEnv
          { mkPlayer Playmode.PLAYMODE_SHUFFLE 0 (-1) (-1) 5 with
              subsong_playlist := [1, 2, 3, 0], subsong_playlist_idx := 3 }
          (mkGbs 4 1) = Except.ok (v, q) ∧ q.random_seed = 5 ∧
        q.subsong_playlist_idx = 3 ∧ q.subsong_playlist = [1, 2, 3, 0]) ∧
      (∃ q, prev_then_next rotEnv
          { mkPlayer Playmode.PLAYMODE_SHUFFLE 0 (-1) (-1) 5 with
              subsong_playlist := [1, 2, 3, 0], subsong_playlist_idx := 3 }
          (mkGbs 4 1) = Except.ok (v, q) ∧ q.random_seed = 5 ∧
        q.subsong_playlist_idx = 3 ∧ q.subsong_playlist = [1, 2, 3, 0])) :=
  ⟨by decide, by decide,
   shuffle_undo_across_regeneration rotEnv rotEnv_shuffle_perm
     { mkPlayer Playmode.PLAYMODE_SHUFFLE 0 (-1) (-1) 5 with
         subsong_playlist := [1, 2, 3, 0], subsong_playlist_idx := 3 }
     (mkGbs 4 1) 4 3 rfl rfl (by decide) (by decide) (by decide) rfl (by decide)
     (by decide)⟩

/-! ## Start seeking in Shuffle mode: theorems -/

/-- The seek loop returns at once when the wanted subsong is first. -/
theorem seek_start_found {G : Type} (E : Env G) (gbs : Gbs) (fuel : Nat) (p : Player G)
    (h : readAt p.subsong_playlist 0 = Except.ok gbs.subsong) :
    seek_start E gbs fuel p = Except.ok p := by
  cases fuel <;> simp [seek_start, h]

/-- One iteration of the seek loop when another subsong is first. -/
theorem seek_start_step {G : Type} (E : Env G) (gbs : Gbs) (fuel : Nat) (p : Player G)
    (v : Int) (h : readAt p.subsong_playlist 0 = Except.ok v) (hv : v ≠ gbs.subsong) :
    seek_start E gbs (fuel + 1) p =
      seek_start E gbs fuel
        { p with subsong_playlist := playlist_of E (seed_succ p.random_seed) gbs.songs,
                 random_seed := seed_succ p.random_seed,
                 rng := (E.shuffle_long (E.srand (seed_succ p.random_seed % UINT_MOD))
                          (identity_playlist gbs.songs) gbs.songs).2 } := by
  simp only [seek_start, h, if_pos hv]
  rfl

/-- The seek loop ends at the first seed, counting up from the current one,
whose playlist starts with the wanted subsong. -/
theorem seek_start_finds {G : Type} (E : Env G)
    (hshuffle : ∀ g a n, (E.shuffle_long g a n).1.Perm a) (gbs : Gbs) (h1 : 1 ≤ gbs.songs) :
    ∀ (m : Nat) (p : Player G),
      p.subsong_playlist = playlist_of E p.random_seed gbs.songs →
      readAt (playlist_of E (seed_succ^[m] p.random_seed) gbs.songs) 0
        = Except.ok gbs.subsong →
      ∀ fuel, m ≤ fuel → ∃ q, seek_start E gbs fuel p = Except.ok q ∧
        readAt q.subsong_playlist 0 = Except.ok gbs.subsong ∧
        q.subsong_playlist_idx = p.subsong_playlist_idx ∧
        q.subsong_playlist = playlist_of E q.random_seed gbs.songs ∧
        ∃ j, j ≤ m ∧ q.random_seed = seed_succ^[j] p.random_seed := by
  intro m
  induction m with
  | zero =>
    intro p hpl hfound fuel _
    have h : readAt p.subsong_playlist 0 = Except.ok gbs.subsong := by
      rw [hpl]
      exact hfound
    exact ⟨p, seek_start_found E gbs fuel p h, h, rfl, hpl, 0, le_refl 0, rfl⟩
  | succ m ih =>
    intro p hpl hfound fuel hfuel
    have hlen := playlist_of_length E hshuffle p.random_seed gbs.songs (by omega)
    obtain ⟨v, hv, -⟩ := readAt_of_lt p.subsong_playlist 0 (le_refl 0)
      (by rw [hpl]; omega)
    by_cases hvk : v = gbs.subsong
    · subst hvk
      exact ⟨p, seek_start_found E gbs fuel p hv, hv, rfl, hpl, 0, Nat.zero_le _, rfl⟩
    · obtain ⟨fuel, rfl⟩ : ∃ f, fuel = f + 1 := ⟨fuel - 1, by omega⟩
      rw [seek_start_step E gbs fuel p v hv hvk]
      obtain ⟨q, hq, hfirst, hidx, hplq, j, hj, hseed⟩ :=
        ih { p with
              subsong_playlist := playlist_of E (seed_succ p.random_seed) gbs.songs,
              random_seed := seed_succ p.random_seed,
              rng := (E.shuffle_long (E.srand (seed_succ p.random_seed % UINT_MOD))
                        (identity_playlist gbs.songs) gbs.songs).2 }
          rfl (by rw [← Function.iterate_succ_apply]; exact hfound) fuel (by omega)
      refine ⟨q, hq, hfirst, hidx, hplq, j + 1, by omega, ?_⟩
      rw [hseed, Function.iterate_succ_apply]

/-- In Shuffle mode with a permuting `shuffle_long` and an explicit start
subsong `k`, `0 ≤ k < N`: if the playlist generated from the seed reached after
`m` increments starts with `k`, then `setup_playmode` returns with any fuel
`≥ m`; on return the first entry of the playlist is `k`, the cursor is 0, the
collection is unchanged, the playlist is the one generated from the final seed,
and the final seed is the seed after at most `m` increments. -/
theorem setup_playmode_seek_terminates {G : Type} (E : Env G)
    (hshuffle : ∀ g a n, (E.shuffle_long g a n).1.Perm a)
    (p : Player G) (gbs : Gbs) (N k : Int) (m fuel : Nat)
    (hmode : p.playmode = Playmode.PLAYMODE_SHUFFLE) (hN : gbs.songs = N)
    (hk : gbs.subsong = k) (hk0 : 0 ≤ k) (hk1 : k < N)
    (hfound : readAt (playlist_of E (seed_succ^[m] p.random_seed) N) 0 = Except.ok k)
    (hfuel : m ≤ fuel) :
    ∃ q, setup_playmode E fuel p gbs = Except.ok (q, gbs) ∧
      readAt q.subsong_playlist 0 = Except.ok k ∧
      q.subsong_playlist_idx = 0 ∧
      q.subsong_playlist = playlist_of E q.random_seed N ∧
      ∃ j, j ≤ m ∧ q.random_seed = seed_succ^[j] p.random_seed := by
  subst hN
  subst hk
  obtain ⟨q, hq, hfirst, hidx, hplq, j, hj, hseed⟩ :=
    seek_start_finds E hshuffle gbs (by omega) m
      { (setup_playlist E p gbs.songs).2 with
          subsong_playlist := (setup_playlist E p gbs.songs).1,
          subsong_playlist_idx := 0 } rfl hfound fuel hfuel
  refine ⟨q, ?_, hfirst, hidx, hplq, j, hj, hseed⟩
  simp only [setup_playmode, hmode]
  rw [if_neg (by omega)]
  simp only [hq]

/-- The playlist depends on the seed only through the `unsigned int` handed to
`srand`. -/
theorem playlist_of_congr {G : Type} (E : Env G) (s t : Nat) (songs : Int)
    (h : s % UINT_MOD = t % UINT_MOD) : playlist_of E s songs = playlist_of E t songs := by
  unfold playlist_of
  rw [h]

/-- After `m` increments the seed handed to `srand` has advanced by `m` modulo
`2^32`. -/
theorem iterate_seed_succ_mod (s : Nat) (m : Nat) :
    (seed_succ^[m] s) % UINT_MOD = (s + m) % UINT_MOD := by
  induction m with
  | zero => rfl
  | succ m ih =>
    rw [Function.iterate_succ_apply']
    simp only [seed_succ, ULONG_MOD, UINT_MOD] at *
    omega

/-- Every seed handed to `srand` is reached from any seed within `2^32`
increments. -/
theorem seed_reached (s t : Nat) :
    ∃ m, m < UINT_MOD ∧ (seed_succ^[m] s) % UINT_MOD = t % UINT_MOD := by
  refine ⟨(t % UINT_MOD + UINT_MOD - s % UINT_MOD) % UINT_MOD, ?_, ?_⟩
  · exact Nat.mod_lt _ (by decide)
  · rw [iterate_seed_succ_mod]
    simp only [UINT_MOD]
    omega

/-- C13: in Shuffle mode with an explicit start subsong `k`, `0 ≤ k < N`, and a
proper shuffle function (it only rearranges the array and places each subsong
first at some seed), `setup_playmode` terminates: some number `m < 2^32` of
iterations of its seek loop suffices, and with any fuel `≥ m` it returns; on
return the first element of the playlist equals `k`, the cursor is 0, the
collection is unchanged (the current subsong is still `k`) and the playlist is
exactly the one generated from the final value of the seed. -/
theorem setup_playmode_start_converges {G : Type} (E : Env G) (p : Player G) (gbs : Gbs)
    (N k : Int) (hproper : proper_shuffle E N)
    (hmode : p.playmode = Playmode.PLAYMODE_SHUFFLE) (hN : gbs.songs = N)
    (hk : gbs.subsong = k) (hk0 : 0 ≤ k) (hk1 : k < N) :
    ∃ m, m < UINT_MOD ∧ ∀ fuel, m ≤ fuel →
      ∃ q, setup_playmode E fuel p gbs = Except.ok (q, gbs) ∧
        gbs.subsong = k ∧
        readAt q.subsong_playlist 0 = Except.ok k ∧
        q.subsong_playlist_idx = 0 ∧
        q.subsong_playlist = playlist_of E q.random_seed N := by
  obtain ⟨t, ht⟩ := hproper.2 k hk0 hk1
  obtain ⟨m, hm, hmod⟩ := seed_reached p.random_seed t
  refine ⟨m, hm, ?_⟩
  intro fuel hfuel
  have hfound : readAt (playlist_of E (seed_succ^[m] p.random_seed) N) 0 = Except.ok k := by
    rw [playlist_of_congr E _ t N hmod]
    exact ht
  obtain ⟨q, hq, hfirst, hidx, hpl, -⟩ :=
    setup_playmode_seek_terminates E hproper.1 p gbs N k m fuel hmode hN hk hk0 hk1 hfound hfuel
  exact ⟨q, hq, hk, hfirst, hidx, hpl⟩

/-- The rotating shuffle of `rotEnv` is a proper shuffle for five subsongs:
seed `k` places subsong `k` first. -/
theorem rotEnv_proper_five : proper_shuffle rotEnv 5 := by
  refine ⟨rotEnv_shuffle_perm, ?_⟩
  intro k h0 h1
  have hcases : k = 0 ∨ k = 1 ∨ k = 2 ∨ k = 3 ∨ k = 4 := by omega
  rcases hcases with rfl | rfl | rfl | rfl | rfl
  · exact ⟨0, by decide⟩
  · exact ⟨1, by decide⟩
  · exact ⟨2, by decide⟩
  · exact ⟨3, by decide⟩
  · exact ⟨4, by decide⟩

/-- C13 at a concrete input: five subsongs, seed 1, rotating shuffle, start
subsong 3: two iterations of the seek loop reach seed 3, whose playlist
`[3, 4, 0, 1, 2]` starts with 3. -/
theorem setup_playmode_start_converges_witness :
    (setup_playmode rotEnv 2 (mkPlayer Playmode.PLAYMODE_SHUFFLE 0 3 (-1) 1)
        { mkGbs 5 1 with subsong := 3 }).map
        (fun r => (r.1.subsong_playlist, r.1.subsong_playlist_idx, r.1.random_seed,
          r.2.subsong)) = Except.ok ([3, 4, 0, 1, 2], 0, 3, 3) ∧
    (∃ m, m < UINT_MOD ∧ ∀ fuel, m ≤ fuel →
      ∃ q, setup_playmode rotEnv fuel (mkPlayer Playmode.PLAYMODE_SHUFFLE 0 3 (-1) 1)
          { mkGbs 5 1 with subsong := 3 } = Except.ok (q, { mkGbs 5 1 with subsong := 3 }) ∧
        ({ mkGbs 5 1 with subsong := 3 } : Gbs).subsong = 3 ∧
        readAt q.subsong_playlist 0 = Except.ok 3 ∧
        q.subsong_playlist_idx = 0 ∧
        q.subsong_playlist = playlist_of rotEnv q.random_seed 5) :=
  ⟨by decide,
   setup_playmode_start_converges rotEnv (mkPlayer Playmode.PLAYMODE_SHUFFLE 0 3 (-1) 1)
     { mkGbs 5 1 with subsong := 3 } 5 3 rotEnv_proper_five rfl rfl rfl (by decide)
     (by decide)⟩

/-! ## Elapsed-time accounting: theorems -/

/-- C14: `update_displaytime` can report negative seconds.  The subsong timeout
is taken from the command line without a check; with `subsong_timeout = -5` and
a subsong of unknown length (`len = 0`) the total shown is 0 minutes and -5
seconds, so `0 ≤ total_sec` fails although `ticks ≥ 0`. -/
theorem update_displaytime_negative_timeout :
    (0 : Int) ≤ ({ mkGbs 1 1 with subsong := 0 } : Gbs).ticks ∧
    update_displaytime 4194304
        { mkPlayer Playmode.PLAYMODE_LINEAR 0 (-1) (-1) 0 with subsong_timeout := -5 }
        { mkGbs 1 1 with subsong := 0 } =
      Except.ok { played_min := 0, played_sec := 0, total_min := 0, total_sec := -5 } ∧
    ¬ ((0 : Int) ≤ -5) := by
  decide

/-- C14, amended: for a positive clock rate, `ticks ≥ 0`, a current subsong
inside the collection and lengths that are not negative, `update_displaytime`
returns times with `played_min*60 + played_sec = ticks / GBHW_CLOCK` and
`0 ≤ played_sec < 60`; `total_min*60 + total_sec` is the length in seconds
`len / 1024` of the current subsong when that is not zero, with
`0 ≤ total_sec < 60`, and the configured subsong timeout when it is zero, with
`0 ≤ total_sec < 60` provided the timeout is not negative.  The function only
computes the times: the session is an argument it does not return. -/
theorem update_displaytime_consistent {G : Type} (GBHW_CLOCK : Int) (p : Player G)
    (gbs : Gbs) (hclock : 0 < GBHW_CLOCK) (hticks : 0 ≤ gbs.ticks)
    (hcur0 : 0 ≤ gbs.subsong) (hcur1 : gbs.subsong < gbs.subsong_info.length)
    (hlen : ∀ l ∈ gbs.subsong_info, 0 ≤ l) :
    ∃ len t, readAt gbs.subsong_info gbs.subsong = Except.ok len ∧
      update_displaytime GBHW_CLOCK p gbs = Except.ok t ∧
      t.played_min * 60 + t.played_sec = Int.tdiv gbs.ticks GBHW_CLOCK ∧
      0 ≤ t.played_sec ∧ t.played_sec < 60 ∧
      (Int.tdiv len 1024 ≠ 0 →
        t.total_min * 60 + t.total_sec = Int.tdiv len 1024 ∧
        0 ≤ t.total_sec ∧ t.total_sec < 60) ∧
      (Int.tdiv len 1024 = 0 →
        t.total_min * 60 + t.total_sec = p.subsong_timeout ∧
        (0 ≤ p.subsong_timeout → 0 ≤ t.total_sec ∧ t.total_sec < 60)) := by
  obtain ⟨len, hread, hmem⟩ := readAt_of_lt gbs.subsong_info gbs.subsong hcur0 hcur1
  have hl : 0 ≤ len := hlen len hmem
  have hplayed : 0 ≤ Int.tdiv gbs.ticks GBHW_CLOCK :=
    Int.tdiv_nonneg hticks (le_of_lt hclock)
  have htotal : 0 ≤ Int.tdiv len 1024 := Int.tdiv_nonneg hl (by decide)
  have hres : update_displaytime GBHW_CLOCK p gbs =
      Except.ok
        { played_min := Int.tdiv (Int.tdiv gbs.ticks GBHW_CLOCK) 60,
          played_sec := Int.tmod (Int.tdiv gbs.ticks GBHW_CLOCK) 60,
          total_min :=
            Int.tdiv (if Int.tdiv len 1024 = 0 then p.subsong_timeout else Int.tdiv len 1024) 60,
          total_sec :=
            Int.tmod (if Int.tdiv len 1024 = 0 then p.subsong_timeout else Int.tdiv len 1024)
              60 } := by
    simp only [update_displaytime, hread]
  refine ⟨len, _, hread, hres, ?_, ?_, ?_, ?_, ?_⟩
  · exact Int.tdiv_add_tmod' _ 60
  · exact Int.tmod_nonneg 60 hplayed
  · exact Int.tmod_lt_of_pos _ (by decide)
  · intro hne
    simp only [if_neg hne]
    exact ⟨Int.tdiv_add_tmod' _ 60, Int.tmod_nonneg 60 htotal,
      Int.tmod_lt_of_pos _ (by decide)⟩
  · intro heq
    simp only [if_pos heq]
    exact ⟨Int.tdiv_add_tmod' _ 60, fun h => ⟨Int.tmod_nonneg 60 h,
      Int.tmod_lt_of_pos _ (by decide)⟩⟩

/-- C14, amended, at a concrete input: `130 * 4194304 + 17` ticks (130 s)
played, a current subsong of length `95 * 1024 + 3` (95 s). -/
theorem update_displaytime_consistent_witness :
    update_displaytime 4194304 (mkPlayer Playmode.PLAYMODE_LINEAR 0 (-1) (-1) 0)
        { mkGbs 2 1 with subsong := 1, ticks := 545259537, subsong_info := [0, 97283] } =
      Except.ok { played_min := 2, played_sec := 10, total_min := 1, total_sec := 35 } ∧
    (∃ len t,
      readAt [0, 97283] 1 = Except.ok len ∧
      update_displaytime 4194304 (mkPlayer Playmode.PLAYMODE_LINEAR 0 (-1) (-1) 0)
        { mkGbs 2 1 with subsong := 1, ticks := 545259537, subsong_info := [0, 97283] } =
        Except.ok t ∧
      t.played_min * 60 + t.played_sec = Int.tdiv 545259537 4194304 ∧
      0 ≤ t.played_sec ∧ t.played_sec < 60 ∧
      (Int.tdiv len 1024 ≠ 0 →
        t.total_min * 60 + t.total_sec = Int.tdiv len 1024 ∧
        0 ≤ t.total_sec ∧ t.total_sec < 60) ∧
      (Int.tdiv len 1024 = 0 →
        t.total_min * 60 + t.total_sec = 120 ∧
        ((0 : Int) ≤ 120 → 0 ≤ t.total_sec ∧ t.total_sec < 60))) :=
  ⟨by decide,
   update_displaytime_consistent 4194304 (mkPlayer Playmode.PLAYMODE_LINEAR 0 (-1) (-1) 0)
     { mkGbs 2 1 with subsong := 1, ticks := 545259537, subsong_info := [0, 97283] }
     (by decide) (by decide) (by decide) (by decide) (by decide)⟩

/-! ## The boundary callback: theorems -/

/-- Function `get_next_subsong` does not change whether the sink has a skip
hook. -/
theorem get_next_subsong_keeps_skip {G : Type} (E : Env G) (p q : Player G) (gbs : Gbs)
    (next : Int) (h : get_next_subsong E p gbs = Except.ok (next, q)) :
    q.has_sound_skip = p.has_sound_skip := by
  rcases playmode_cases p.playmode with hm | hm | hm
  · simp only [get_next_subsong, hm] at h
    cases h
    rfl
  · simp only [get_next_subsong, hm] at h
    cases h
    rfl
  · simp only [get_next_subsong, hm] at h
    split at h
    · cases h
      split <;> rfl
    · cases h

/-- C15: with looping off, given the index `next` that `get_next_subsong`
returns, `nextsubsong_cb` returns false, calling neither the engine nor the
sink, exactly when the current subsong equals the stop bound or `next ≥ N`; in
every other case it calls `gbs_init` with `next`, then the skip hook with `next`
when the sink has one, and returns true. -/
theorem nextsubsong_cb_without_loop {G : Type} (E : Env G) (fuel : Nat) (p p1 : Player G)
    (gbs : Gbs) (next : Int) (hloop : p.loopmode = 0)
    (hnext : get_next_subsong E p gbs = Except.ok (next, p1)) :
    nextsubsong_cb E fuel p gbs =
      (if gbs.subsong = p.subsong_stop ∨ gbs.songs ≤ next then
        Except.ok ⟨false, p1, gbs, []⟩
      else
        Except.ok ⟨true, p1, gbs_init gbs next,
          Call.gbs_init next ::
            (if p.has_sound_skip then [Call.sound_skip next] else [])⟩) ∧
    ∃ r, nextsubsong_cb E fuel p gbs = Except.ok r ∧
      (r.ret = false ↔ (gbs.subsong = p.subsong_stop ∨ gbs.songs ≤ next)) := by
  have hf := get_next_subsong_frame E p p1 gbs next hnext
  have hs := get_next_subsong_keeps_skip E p p1 gbs next hnext
  have hloop1 : ¬ p1.loopmode ≠ 0 := by
    rw [hf.2.2.2, hloop]
    exact fun h => h rfl
  have heq : nextsubsong_cb E fuel p gbs =
      (if gbs.subsong = p.subsong_stop ∨ gbs.songs ≤ next then
        Except.ok ⟨false, p1, gbs, []⟩
      else
        Except.ok ⟨true, p1, gbs_init gbs next,
          Call.gbs_init next ::
            (if p.has_sound_skip then [Call.sound_skip next] else [])⟩) := by
    simp only [nextsubsong_cb, hnext, hf.2.1, skip_calls, hs, ge_iff_le]
    by_cases hc : gbs.subsong = p.subsong_stop ∨ gbs.songs ≤ next
    · rw [if_pos hc, if_pos hc, if_neg hloop1]
    · rw [if_neg hc, if_neg hc]
  refine ⟨heq, ?_⟩
  rw [heq]
  by_cases hc : gbs.subsong = p.subsong_stop ∨ gbs.songs ≤ next
  · rw [if_pos hc]
    exact ⟨_, rfl, ⟨fun _ => hc, fun _ => rfl⟩⟩
  · rw [if_neg hc]
    exact ⟨_, rfl, ⟨fun h => absurd h (by simp), fun h => absurd h hc⟩⟩

/-- C15 at concrete inputs: Linear mode, looping off, stop bound 2, five
subsongs: at subsong 1 the callback moves to 2, at subsong 2 it reports that the
sequence is complete. -/
theorem nextsubsong_cb_without_loop_witness :
    nextsubsong_cb rotEnv 0 (mkPlayer Playmode.PLAYMODE_LINEAR 0 (-1) 2 0)
        { mkGbs 5 1 with subsong := 1 } =
      Except.ok ⟨true, mkPlayer Playmode.PLAYMODE_LINEAR 0 (-1) 2 0,
        { mkGbs 5 1 with subsong := 2 }, [Call.gbs_init 2, Call.sound_skip 2]⟩ ∧
    (nextsubsong_cb rotEnv 0 (mkPlayer Playmode.PLAYMODE_LINEAR 0 (-1) 2 0)
        { mkGbs 5 1 with subsong := 2 } =
      (if (2 : Int) = 2 ∨ (5 : Int) ≤ 3 then
        Except.ok ⟨false, mkPlayer Playmode.PLAYMODE_LINEAR 0 (-1) 2 0,
          { mkGbs 5 1 with subsong := 2 }, []⟩
      else
        Except.ok ⟨true, mkPlayer Playmode.PLAYMODE_LINEAR 0 (-1) 2 0,
          gbs_init { mkGbs 5 1 with subsong := 2 } 3,
          Call.gbs_init 3 :: (if true then [Call.sound_skip 3] else [])⟩) ∧
     ∃ r, nextsubsong_cb rotEnv 0 (mkPlayer Playmode.PLAYMODE_LINEAR 0 (-1) 2 0)
        { mkGbs 5 1 with subsong := 2 } = Except.ok r ∧
      (r.ret = false ↔ ((2 : Int) = 2 ∨ (5 : Int) ≤ 3))) :=
  ⟨by decide,
   nextsubsong_cb_without_loop rotEnv 0 (mkPlayer Playmode.PLAYMODE_LINEAR 0 (-1) 2 0)
     (mkPlayer Playmode.PLAYMODE_LINEAR 0 (-1) 2 0) { mkGbs 5 1 with subsong := 2 } 3 rfl rfl⟩

/-- The draws of `rotEnv` lie below the bound. -/
theorem rotEnv_rand_range (g : Nat) (n : Int) (hn : 0 < n) :
    0 ≤ (rotEnv.rand_long g n).1 ∧ (rotEnv.rand_long g n).1 < n := by
  have h := Nat.mod_lt g (show 0 < n.toNat by omega)
  simp only [rotEnv]
  omega

/-- Function `setup_playmode` leaves the collection as it is when a start
subsong is set on entry. -/
theorem setup_playmode_keeps_requested {G : Type} (E : Env G) (fuel : Nat) (p : Player G)
    (gbs : Gbs) (hset : gbs.subsong ≠ -1) (r : Player G × Gbs)
    (h : setup_playmode E fuel p gbs = Except.ok r) : r.2 = gbs := by
  rcases playmode_cases p.playmode with hm | hm | hm
  · rw [setup_playmode_linear E fuel p gbs hm, if_neg hset] at h
    cases h
    rfl
  · simp only [setup_playmode, hm, if_neg hset] at h
    cases h
    rfl
  · simp only [setup_playmode, hm, if_neg hset] at h
    split at h
    · cases h
      rfl
    · cases h

/-- C17: `setup_playmode` chooses a start subsong only when none is set.  If
the current subsong is not -1 on entry the collection is unchanged on return, in
every mode.  If it is -1: in Linear mode it becomes `defaultsong - 1`; in Shuffle
mode (permuting `shuffle_long`, `N ≥ 1`) it becomes entry 0 of the playlist
generated from the current seed, which stays as it is; in Random mode it becomes
the draw `rand_long(N)`, which lies in `[0, N)` when `rand_long` draws below its
bound. -/
theorem setup_playmode_start_choice {G : Type} (E : Env G) (fuel : Nat) (p : Player G)
    (gbs : Gbs) (hshuffle : ∀ g a n, (E.shuffle_long g a n).1.Perm a)
    (hrand : ∀ g n, 0 < n → 0 ≤ (E.rand_long g n).1 ∧ (E.rand_long g n).1 < n)
    (hN : 1 ≤ gbs.songs) :
    (gbs.subsong ≠ -1 → ∀ r, setup_playmode E fuel p gbs = Except.ok r → r.2 = gbs) ∧
    (gbs.subsong = -1 → p.playmode = Playmode.PLAYMODE_LINEAR →
      setup_playmode E fuel p gbs =
        Except.ok (p, { gbs with subsong := gbs.defaultsong - 1 })) ∧
    (gbs.subsong = -1 → p.playmode = Playmode.PLAYMODE_SHUFFLE →
      ∃ v q, readAt (playlist_of E p.random_seed gbs.songs) 0 = Except.ok v ∧
        setup_playmode E fuel p gbs = Except.ok (q, { gbs with subsong := v }) ∧
        q.random_seed = p.random_seed ∧
        q.subsong_playlist = playlist_of E p.random_seed gbs.songs ∧
        q.subsong_playlist_idx = 0) ∧
    (gbs.subsong = -1 → p.playmode = Playmode.PLAYMODE_RANDOM →
      setup_playmode E fuel p gbs =
        Except.ok ({ p with rng := (E.rand_long p.rng gbs.songs).2 },
          { gbs with subsong := (E.rand_long p.rng gbs.songs).1 }) ∧
      0 ≤ (E.rand_long p.rng gbs.songs).1 ∧ (E.rand_long p.rng gbs.songs).1 < gbs.songs) := by
  refine ⟨fun hset r h => setup_playmode_keeps_requested E fuel p gbs hset r h, ?_, ?_, ?_⟩
  · intro hnone hm
    rw [setup_playmode_linear E fuel p gbs hm, if_pos hnone]
  · intro hnone hm
    have hlen := playlist_of_length E hshuffle p.random_seed gbs.songs (by omega)
    obtain ⟨v, hv, -⟩ := readAt_of_lt (playlist_of E p.random_seed gbs.songs) 0
      (le_refl 0) (by omega)
    have hv2 : readAt (setup_playlist E p gbs.songs).1 0 = Except.ok v := hv
    have hres : setup_playmode E fuel p gbs =
        Except.ok ({ (setup_playlist E p gbs.songs).2 with
            subsong_playlist := (setup_playlist E p gbs.songs).1,
            subsong_playlist_idx := 0 }, { gbs with subsong := v }) := by
      simp only [setup_playmode, hm, if_pos hnone, hv2]
    exact ⟨v, _, hv, hres, rfl, rfl, rfl⟩
  · intro hnone hm
    refine ⟨?_, hrand p.rng gbs.songs (by omega)⟩
    simp only [setup_playmode, hm, if_pos hnone, get_next_subsong]

/-- C17 at a concrete input: Shuffle mode, five subsongs, seed 3, no start
subsong requested: the playlist of seed 3 is `[3, 4, 0, 1, 2]` and subsong 3 is
chosen. -/
theorem setup_playmode_start_choice_witness :
    setup_playmode rotEnv 0 (mkPlayer Playmode.PLAYMODE_SHUFFLE 0 (-1) (-1) 3) (mkGbs 5 1) =
      Except.ok ({ mkPlayer Playmode.PLAYMODE_SHUFFLE 0 (-1) (-1) 3 with
          subsong_playlist := [3, 4, 0, 1, 2], rng := 4 }, { mkGbs 5 1 with subsong := 3 }) ∧
    ((mkGbs 5 1).subsong = -1 →
      (mkPlayer Playmode.PLAYMODE_SHUFFLE 0 (-1) (-1) 3).playmode =
        Playmode.PLAYMODE_SHUFFLE →
      ∃ v q, readAt (playlist_of rotEnv 3 5) 0 = Except.ok v ∧
        setup_playmode rotEnv 0 (mkPlayer Playmode.PLAYMODE_SHUFFLE 0 (-1) (-1) 3)
          (mkGbs 5 1) = Except.ok (q, { mkGbs 5 1 with subsong := v }) ∧
        q.random_seed = 3 ∧ q.subsong_playlist = playlist_of rotEnv 3 5 ∧
        q.subsong_playlist_idx = 0) :=
  ⟨by decide,
   (setup_playmode_start_choice rotEnv 0 (mkPlayer Playmode.PLAYMODE_SHUFFLE 0 (-1) (-1) 3)
      (mkGbs 5 1) rotEnv_shuffle_perm rotEnv_rand_range (by decide)).2.2.1⟩

/-- In Shuffle mode with a well-formed playlist and cursor, and a permuting
`shuffle_long`, `get_next_subsong` returns a subsong of the collection. -/
theorem get_next_subsong_shuffle_range {G : Type} (E : Env G)
    (hshuffle : ∀ g a n, (E.shuffle_long g a n).1.Perm a)
    (p : Player G) (gbs : Gbs) (hmode : p.playmode = Playmode.PLAYMODE_SHUFFLE)
    (h1 : 1 ≤ gbs.songs) (hlen : (p.subsong_playlist.length : Int) = gbs.songs)
    (hent : ∀ v ∈ p.subsong_playlist, 0 ≤ v ∧ v < gbs.songs)
    (hidx0 : 0 ≤ p.subsong_playlist_idx) (hidx1 : p.subsong_playlist_idx < gbs.songs) :
    ∃ next p1, get_next_subsong E p gbs = Except.ok (next, p1) ∧ 0 ≤ next ∧
      next < gbs.songs ∧ p1.subsong_stop = p.subsong_stop := by
  by_cases hend : p.subsong_playlist_idx + 1 = gbs.songs
  · obtain ⟨v, q, hq, -, -, -, hpl, hstop, -, hv⟩ :=
      get_next_subsong_wrap_ok E hshuffle p gbs hmode hend h1
    obtain ⟨w, hw, hmem⟩ := readAt_of_lt q.subsong_playlist 0 (le_refl 0)
      (by rw [hpl]; have := playlist_of_length E hshuffle (seed_succ p.random_seed)
            gbs.songs (by omega); omega)
    rw [hv] at hw
    cases hw
    rw [hpl] at hmem
    have hr := mem_playlist_of E hshuffle _ _ _ hmem
    exact ⟨v, q, hq, hr.1, hr.2, hstop⟩
  · obtain ⟨v, hv, hmem⟩ := readAt_of_lt p.subsong_playlist (p.subsong_playlist_idx + 1)
      (by omega) (by omega)
    have hget := get_next_subsong_inner E p gbs hmode hend
    simp only [hv] at hget
    exact ⟨v, _, hget, (hent v hmem).1, (hent v hmem).2, rfl⟩

/-- C19: in Shuffle mode (playlist a rearrangement of `0 .. N-1`, cursor in
`[0, N)`, permuting `shuffle_long`) and in Random mode (given
`rand_long(N) < N`), with the stop bound disabled, `N ≥ 1` and a current subsong
in `[0, N)`, `nextsubsong_cb` returns true whatever the loop flag: it calls
`gbs_init` with the subsong `get_next_subsong` returned, which is below `N`. -/
theorem nextsubsong_cb_never_completes {G : Type} (E : Env G) (fuel : Nat) (p : Player G)
    (gbs : Gbs) (N : Int)
    (hshuffle : ∀ g a n, (E.shuffle_long g a n).1.Perm a)
    (hrand : ∀ g, (E.rand_long g N).1 < N)
    (hN : gbs.songs = N) (h1 : 1 ≤ N) (hstop : p.subsong_stop = -1)
    (hcur0 : 0 ≤ gbs.subsong) (hcur1 : gbs.subsong < N)
    (hmode : p.playmode = Playmode.PLAYMODE_SHUFFLE ∨ p.playmode = Playmode.PLAYMODE_RANDOM)
    (hpl : p.playmode = Playmode.PLAYMODE_SHUFFLE →
      (p.subsong_playlist.length : Int) = N ∧
      (∀ v ∈ p.subsong_playlist, 0 ≤ v ∧ v < N) ∧
      0 ≤ p.subsong_playlist_idx ∧ p.subsong_playlist_idx < N) :
    ∃ next p1, get_next_subsong E p gbs = Except.ok (next, p1) ∧ next < N ∧
      nextsubsong_cb E fuel p gbs =
        Except.ok ⟨true, p1, gbs_init gbs next,
          Call.gbs_init next :: skip_calls p1 next⟩ := by
  subst hN
  have hkey : ∃ next p1, get_next_subsong E p gbs = Except.ok (next, p1) ∧
      next < gbs.songs ∧ p1.subsong_stop = p.subsong_stop := by
    rcases hmode with hm | hm
    · obtain ⟨hlen, hent, hidx0, hidx1⟩ := hpl hm
      obtain ⟨next, p1, hget, -, hlt, hs⟩ :=
        get_next_subsong_shuffle_range E hshuffle p gbs hm h1 hlen hent hidx0 hidx1
      exact ⟨next, p1, hget, hlt, hs⟩
    · refine ⟨(E.rand_long p.rng gbs.songs).1,
        { p with rng := (E.rand_long p.rng gbs.songs).2 }, ?_, hrand p.rng, rfl⟩
      simp only [get_next_subsong, hm]
  obtain ⟨next, p1, hget, hlt, hs⟩ := hkey
  refine ⟨next, p1, hget, hlt, ?_⟩
  have hcond : ¬ (gbs.subsong = p1.subsong_stop ∨ next ≥ gbs.songs) := by
    rw [hs, hstop]
    rintro (h | h) <;> omega
  simp only [nextsubsong_cb, hget, if_neg hcond]

/-- C19 at a concrete input: Shuffle mode with looping off, four subsongs,
cursor at the last entry of the playlist of seed 5: the callback regenerates the
playlist and moves on to subsong 2. -/
theorem nextsubsong_cb_never_completes_witness :
    (nextsubsong_cb rotEnv 0
        { mkPlayer Playmode.PLAYMODE_SHUFFLE 0 (-1) (-1) 5 with
            subsong_playlist := [1, 2, 3, 0], subsong_playlist_idx := 3 }
        { mkGbs 4 1 with subsong := 0 }).map (fun r => (r.ret, r.calls)) =
      Except.ok (true, [Call.gbs_init 2, Call.sound_skip 2]) ∧
    (∃ next p1,
      get_next_subsong rotEnv
        { mkPlayer Playmode.PLAYMODE_SHUFFLE 0 (-1) (-1) 5 with
            subsong_playlist := [1, 2, 3, 0], subsong_playlist_idx := 3 }
        { mkGbs 4 1 with subsong := 0 } = Except.ok (next, p1) ∧ next < 4 ∧
      nextsubsong_cb rotEnv 0
        { mkPlayer Playmode.PLAYMODE_SHUFFLE 0 (-1) (-1) 5 with
            subsong_playlist := [1, 2, 3, 0], subsong_playlist_idx := 3 }
        { mkGbs 4 1 with subsong := 0 } =
        Except.ok ⟨true, p1, gbs_init { mkGbs 4 1 with subsong := 0 } next,
          Call.gbs_init next :: skip_calls p1 next⟩) :=
  ⟨by decide,
   nextsubsong_cb_never_completes rotEnv 0
     { mkPlayer Playmode.PLAYMODE_SHUFFLE 0 (-1) (-1) 5 with
         subsong_playlist := [1, 2, 3, 0], subsong_playlist_idx := 3 }
     { mkGbs 4 1 with subsong := 0 } 4 rotEnv_shuffle_perm
     (fun g => (rotEnv_rand_range g 4 (by decide)).2) rfl (by decide) rfl (by decide)
     (by decide) (Or.inl rfl) (fun _ => by decide)⟩

/-- When the seek loop returns, the wanted subsong is the first entry of the
playlist and the cursor is where it was. -/
theorem seek_start_post {G : Type} (E : Env G) (gbs : Gbs) :
    ∀ (fuel : Nat) (p q : Player G), seek_start E gbs fuel p = Except.ok q →
      readAt q.subsong_playlist 0 = Except.ok gbs.subsong ∧
      q.subsong_playlist_idx = p.subsong_playlist_idx := by
  intro fuel
  induction fuel with
  | zero =>
    intro p q h
    unfold seek_start at h
    split at h
    · cases h
    · rename_i first hfirst
      split at h
      · cases h
      · rename_i hne
        cases h
        rw [hfirst, not_ne_iff.1 hne]
        exact ⟨rfl, rfl⟩
  | succ fuel ih =>
    intro p q h
    unfold seek_start at h
    split at h
    · cases h
    · rename_i first hfirst
      split at h
      · have h2 := ih _ _ h
        exact ⟨h2.1, h2.2⟩
      · rename_i hne
        cases h
        rw [hfirst, not_ne_iff.1 hne]
        exact ⟨rfl, rfl⟩

/-- In Shuffle mode the loop branch of `nextsubsong_cb` seeks the subsong that
has just ended, not the configured start subsong: whenever the callback made at
the stop bound returns, the engine plays `subsong_start` while the playlist
entry at the cursor is the stop subsong. -/
theorem loop_branch_seeks_ended_subsong {G : Type} (E : Env G) (fuel : Nat) (p : Player G)
    (gbs : Gbs) (r : CbResult G) (hmode : p.playmode = Playmode.PLAYMODE_SHUFFLE)
    (hloop : p.loopmode ≠ 0) (hcur : gbs.subsong = p.subsong_stop)
    (hset : gbs.subsong ≠ -1) (h : nextsubsong_cb E fuel p gbs = Except.ok r) :
    r.ret = true ∧ r.gbs.subsong = p.subsong_start ∧
    readAt r.player.subsong_playlist r.player.subsong_playlist_idx =
      Except.ok gbs.subsong := by
  unfold nextsubsong_cb at h
  split at h
  · cases h
  · rename_i next p1 hnext
    have hf := get_next_subsong_frame E p p1 gbs next hnext
    rw [if_pos (Or.inl (hcur.trans hf.2.1.symm)), if_pos (by rw [hf.2.2.2]; exact hloop)] at h
    simp only [setup_playmode, hf.2.2.1.trans hmode, if_neg hset] at h
    split at h
    · cases h
    · rename_i p2 gbs2 hsetup
      split at hsetup
      · rename_i hq
        cases hsetup
        cases h
        have hpost := seek_start_post E gbs fuel _ _ hq
        refine ⟨rfl, hf.1, ?_⟩
        show readAt p2.subsong_playlist p2.subsong_playlist_idx = Except.ok gbs.subsong
        rw [hpost.2]
        exact hpost.1
      · cases hsetup

/-- C16: in Shuffle mode the loop branch of the callback breaks the link between
the subsong played and the playlist cursor.  Five subsongs, looping on, start 2
and stop 3 (zero-based), rotating shuffle with seed 5: after session setup
subsong 2 plays and is the entry at the cursor; the first callback moves to 3,
the entry at the cursor; the second callback, made at the stop bound, returns
true and restarts subsong 2, but the entry at the cursor is 3. -/
theorem loop_restart_leaves_cursor_on_stop_subsong :
    (common_init rotEnv 10 (mkPlayer Playmode.PLAYMODE_SHUFFLE 1 2 3 5) (mkGbs 5 1)).map
        (fun r => (r.gbs.subsong,
          readAt r.player.subsong_playlist r.player.subsong_playlist_idx)) =
      Except.ok (2, Except.ok 2) ∧
    ((common_init rotEnv 10 (mkPlayer Playmode.PLAYMODE_SHUFFLE 1 2 3 5) (mkGbs 5 1)).bind
        (fun r => run_boundaries rotEnv 10 2 r.player r.gbs)).map
        (fun rs => rs.map (fun r => (r.ret, r.calls, r.gbs.subsong,
          readAt r.player.subsong_playlist r.player.subsong_playlist_idx))) =
      Except.ok [(true, [Call.gbs_init 3, Call.sound_skip 3], 3, Except.ok 3),
                 (true, [Call.gbs_init 2, Call.sound_skip 2], 2, Except.ok 3)] := by
  decide

/-! ## File names: theorems -/

/-- Without a `/` ahead the loop returns the text it has kept. -/
theorem filename_only_loop_no_slash (rest ret : List Char) (h : '/' ∉ rest) :
    filename_only_loop rest ret = ret := by
  induction rest generalizing ret with
  | nil => rfl
  | cons c rest ih =>
    have hc : c ≠ '/' := fun hc => h (by rw [hc]; exact List.mem_cons_self _ _)
    have hrest : '/' ∉ rest := fun hm => h (List.mem_cons_of_mem _ hm)
    rw [filename_only_loop, if_neg hc]
    exact ih ret hrest

/-- With a `/` ahead the loop returns the text after the last one. -/
theorem filename_only_loop_slash (rest ret : List Char) (h : '/' ∈ rest) :
    '/' ∉ filename_only_loop rest ret ∧
    ∃ pre, rest = pre ++ '/' :: filename_only_loop rest ret := by
  induction rest generalizing ret with
  | nil => cases h
  | cons c rest ih =>
    by_cases hc : c = '/'
    · rw [filename_only_loop, if_pos hc]
      by_cases hrest : '/' ∈ rest
      · obtain ⟨hno, pre, hpre⟩ := ih rest hrest
        exact ⟨hno, c :: pre, by rw [List.cons_append, ← hpre]⟩
      · rw [filename_only_loop_no_slash rest rest hrest]
        exact ⟨hrest, [], by rw [hc]; rfl⟩
    · rw [filename_only_loop, if_neg hc]
      have hrest : '/' ∈ rest := by
        rcases List.mem_cons.1 h with h1 | h1
        · exact absurd h1.symm hc
        · exact h1
      obtain ⟨hno, pre, hpre⟩ := ih ret hrest
      exact ⟨hno, c :: pre, by rw [List.cons_append, ← hpre]⟩

/-- C20: `filename_only` returns the part of its argument after the last `/`:
the result contains no `/`, the argument is some `p` followed by the result
where `p` is empty or ends with `/`, and an argument without `/` is returned
whole. -/
theorem filename_only_after_last_slash (s : List Char) :
    '/' ∉ filename_only s ∧
    (∃ p, s = p ++ filename_only s ∧ (p = [] ∨ p.getLast? = some '/')) ∧
    ('/' ∉ s → filename_only s = s) := by
  unfold filename_only
  by_cases h : '/' ∈ s
  · obtain ⟨hno, pre, hpre⟩ := filename_only_loop_slash s s h
    refine ⟨hno, ⟨pre ++ ['/'], ?_, Or.inr ?_⟩, fun hn => absurd h hn⟩
    · rw [List.append_assoc]
      exact hpre
    · simp
  · rw [filename_only_loop_no_slash s s h]
    exact ⟨h, ⟨[], rfl, Or.inl rfl⟩, fun _ => rfl⟩

end GbsPlay
